import Mathlib

/-!
Verification development for the alexandria media-library migration pipeline.

Strings are modelled as lists of characters (`Str`); Python string methods
(`lower`, `strip`, `split`, substring `in`, `zfill`, ...) are embedded as
functions on `Str`.  Python floats are modelled as exact rationals.  The
filesystem is modelled as a partial map from rendered paths to file contents;
directories are not part of the model, so pruning of empty directories is
invisible.  Cryptographic digests are abstract: every definition that hashes
bytes takes the digest function as an explicit parameter.
-/

namespace Alexandria

/-- Python strings as lists of characters. -/
abbrev Str := List Char

/-- Shorthand turning a Lean string literal into the `Str` model. -/
def s (x : String) : Str := x.data

/-- Python `str.lower()`, modelled character-wise. -/
def pyLower (x : Str) : Str := x.map Char.toLower

/-- Python `str.upper()`, modelled character-wise. -/
def pyUpper (x : Str) : Str := x.map Char.toUpper

/-- Python `str.strip()`: drop whitespace from both ends. -/
def pyStrip (x : Str) : Str :=
  ((x.dropWhile Char.isWhitespace).reverse.dropWhile Char.isWhitespace).reverse

/-- Python truthiness of an optional string: `None` and `""` are falsy. -/
def truthyOpt : Option Str → Bool
  | none => false
  | some x => !x.isEmpty

/-- Python `str.zfill(n)`: left-pad with `'0'` to length `n`. -/
def zfill (n : Nat) (x : Str) : Str := List.replicate (n - x.length) '0' ++ x

/-- Decimal rendering of a natural number. -/
def natStr (n : Nat) : Str := Nat.toDigits 10 n

/-- Python substring test `needle in hay` (contiguous substring). -/
def pyIn (needle hay : Str) : Bool := decide (needle <:+: hay)

/-- Python `str.split(sep)` for a one-character separator (keeps empty parts). -/
def splitChar (sep : Char) : Str → List Str
  | [] => [[]]
  | c :: rest =>
    match splitChar sep rest with
    | [] => [[]]
    | p :: ps => if c = sep then [] :: p :: ps else (c :: p) :: ps

/-! ## Checksum Service (`src/librarian/inspector/checksum.py`,
`src/librarian/filer/transfer.py` lines 11-17)

A file's bytes are a `Content`; `readChunks n` models the successive values of
`f.read(n)` until the empty read.  A `hashlib` object absorbs the chunk
sequence in order, so its final digest is the abstract digest function applied
to the concatenation of the chunks. -/

abbrev Content := List Nat

/-- The chunk sequence produced by repeated `f.read(chunkSize)`. -/
def readChunks (chunkSize : Nat) (l : Content) : List Content :=
  if h : chunkSize = 0 ∨ l = [] then []
  else l.take chunkSize :: readChunks chunkSize (l.drop chunkSize)
termination_by l.length
decreasing_by
  push_neg at h
  have h0 : 0 < chunkSize := Nat.pos_of_ne_zero h.1
  have h1 : 0 < l.length := List.length_pos.mpr h.2
  simp only [List.length_drop]
  omega

/-- `inspector/checksum.py` `calculate_md5`: chunked single-digest hash. -/
def calculate_md5 (md5 : Content → Str) (content : Content)
    (chunk_size : Nat) : Str :=
  md5 (readChunks chunk_size content).flatten

/-- `inspector/checksum.py` `calculate_sha256`. -/
def calculate_sha256 (sha256 : Content → Str) (content : Content)
    (chunk_size : Nat) : Str :=
  sha256 (readChunks chunk_size content).flatten

/-- `inspector/checksum.py` `calculate_checksums`: both digests in one pass
over a single chunk stream. -/
def calculate_checksums (md5 sha256 : Content → Str) (content : Content) :
    Str × Str :=
  let chunks := readChunks 8192 content
  (md5 chunks.flatten, sha256 chunks.flatten)

/-- `filer/transfer.py` `calculate_md5` (independent re-implementation with a
fixed 8192-byte chunk size). -/
def transfer_calculate_md5 (md5 : Content → Str) (content : Content) : Str :=
  md5 (readChunks 8192 content).flatten

/-! ## Filesystem model and safe transfer (`src/librarian/filer/transfer.py`)

A `pathlib.Path` is modelled at the granularity the filer uses: a directory
part, a stem and a suffix (extension including the dot).  The filesystem is a
partial map from rendered paths to contents; directories are implicit, so
`cleanup_empty_parents` (which only removes empty directories) is invisible in
this model.  Python exceptions are modelled with `Except Str`, the string
naming the exception class. -/

/-- The fields of `pathlib.Path` that the filer reads (`parent`, `stem`,
`suffix`); rendering joins them with `/` and concatenation. -/
structure PathT where
  dir : Str
  stem : Str
  suffix : Str
deriving DecidableEq

/-- `str(path)`. -/
def PathT.render (p : PathT) : Str := p.dir ++ [ '/' ] ++ p.stem ++ p.suffix

/-- The filesystem: file contents keyed by rendered path. -/
def FS : Type := Str → Option Content

/-- Write a file. -/
def fsSet (fs : FS) (p : Str) (c : Content) : FS :=
  fun q => if q = p then some c else fs q

/-- `Path.unlink` (on the map; no-op if absent). -/
def fsDel (fs : FS) (p : Str) : FS :=
  fun q => if q = p then none else fs q

/-- `Path.exists()`. -/
def fsExists (fs : FS) (p : Str) : Bool := (fs p).isSome

/-- `calculate_md5(path)` on a live filesystem: raises `OSError` when the
file cannot be opened. -/
def fsMd5 (md5 : Content → Str) (fs : FS) (p : PathT) : Except Str Str :=
  match fs p.render with
  | some c => .ok (md5 c)
  | none => .error (s "OSError")

/-- `transfer.py` `_remove_and_cleanup`: unlink the source inside a
`try/except OSError` (unlinking a missing file is caught and ignored), then
prune empty parent directories (invisible here, see the module comment). -/
def remove_and_cleanup (fs : FS) (source : PathT)
    (_cleanup_up_to : Option Str) : FS :=
  fsDel fs source.render

/-- `transfer.py` `copy_verify_remove`.  The copy step writes the source's
bytes at the destination (`shutil.copy2`; raises `OSError` when the source is
missing); verification recomputes the destination digest and compares with
`expected_checksum` (computed from the source when not supplied). -/
def copy_verify_remove (md5 : Content → Str) (fs : FS)
    (source destination : PathT) (expected_checksum : Option Str)
    (cleanup_parents_up_to : Option Str) : Except Str (FS × Bool) := do
  let expected ← match expected_checksum with
    | none => fsMd5 md5 fs source
    | some e => pure e
  match fs destination.render with
  | some destContent =>
    if md5 destContent = expected then
      -- Destination already has the correct file - just clean up source
      pure (remove_and_cleanup fs source cleanup_parents_up_to, true)
    else
      -- Destination exists but does not match - fail rather than overwrite
      pure (fs, false)
  | none =>
    match fs source.render with
    | none => .error (s "OSError")
    | some srcContent =>
      let fs1 := fsSet fs destination.render srcContent
      if md5 srcContent = expected then
        -- Copy verified - now safe to remove source
        pure (remove_and_cleanup fs1 source cleanup_parents_up_to, true)
      else
        -- Remove the bad copy
        pure (fsDel fs1 destination.render, false)

/-! ## Canonical naming (`src/librarian/filer/naming.py` lines 247-267) -/

/-- The candidate `parent / f"{stem} ({counter}){suffix}"`. -/
def uniqueVariant (path : PathT) (counter : Nat) : PathT :=
  { dir := path.dir
    stem := path.stem ++ s " (" ++ natStr counter ++ s ")"
    suffix := path.suffix }

/-- The `while True` loop of `ensure_unique_path`: test the candidate for
`counter`, increment, and raise `ValueError` once the counter passes 100.
`fuel` counts the increments left before the counter exceeds 100. -/
def uniqueLoop (fs : FS) (path : PathT) : Nat → Nat → Except Str PathT
  | counter, fuel =>
    let new_path := uniqueVariant path counter
    if fsExists fs new_path.render = false then .ok new_path
    else
      match fuel with
      | 0 => .error (s "ValueError")
      | fuel + 1 => uniqueLoop fs path (counter + 1) fuel

/-- `naming.py` `ensure_unique_path`: counter starts at 2 and the loop raises
after the candidate for 100 is also taken (98 increments after the first
candidate). -/
def ensure_unique_path (fs : FS) (path : PathT) : Except Str PathT :=
  if fsExists fs path.render = false then .ok path
  else uniqueLoop fs path 2 98

/-! ## Enricher (`src/librarian/enricher/`)

The per-source result dataclasses, the merge of their disagreeing answers
(`enricher.py` `_merge_results`, translated block by block in source order)
and the derived confidence score.  The `raw` debugging dictionaries are not
modelled. -/

/-- Python truthiness of a string list (empty list is falsy). -/
def truthyList (l : List Str) : Bool := !l.isEmpty

/-- Python truthiness of an optional int (`None` and `0` are falsy). -/
def truthyInt : Option ℤ → Bool
  | none => false
  | some n => n ≠ 0

/-- `oclc.py` `OCLCResult`. -/
structure OCLCResult where
  title : Option Str := none
  authors : List Str := []
  ddc : Option Str := none
  ddc_editions : List Str := []
  lcc : Option Str := none
  owi : Option Str := none
  holdings : Option ℤ := none
deriving DecidableEq

/-- `openlibrary.py` `OpenLibraryResult`. -/
structure OpenLibraryResult where
  title : Option Str := none
  authors : List Str := []
  publishers : List Str := []
  publish_date : Option Str := none
  description : Option Str := none
  subjects : List Str := []
  isbn_10 : List Str := []
  isbn_13 : List Str := []
  ddc : List Str := []
  lcc : List Str := []
  cover_url : Option Str := none
  openlibrary_key : Option Str := none
deriving DecidableEq

/-- `google_books.py` `GoogleBooksResult`. -/
structure GoogleBooksResult where
  title : Option Str := none
  subtitle : Option Str := none
  authors : List Str := []
  publisher : Option Str := none
  publish_date : Option Str := none
  description : Option Str := none
  categories : List Str := []
  isbn_10 : Option Str := none
  isbn_13 : Option Str := none
  page_count : Option ℤ := none
  language : Option Str := none
  cover_url : Option Str := none
  google_books_id : Option Str := none
deriving DecidableEq

/-- `librarything.py` `LibraryThingResult`. -/
structure LibraryThingResult where
  work_id : Option Str := none
  title : Option Str := none
  authors : List Str := []
  series : Option Str := none
  series_number : Option ℚ := none
  tags : List Str := []
  related_isbns : List Str := []
deriving DecidableEq

/-- `calibre.py` `CalibreBook`. -/
structure CalibreBook where
  id : ℤ
  title : Str
  authors : List Str := []
  series : Option Str := none
  series_index : Option ℚ := none
  publisher : Option Str := none
  isbn : Option Str := none
  identifiers : List (Str × Str) := []
  tags : List Str := []
  description : Option Str := none
  language : Option Str := none
  path : Option Str := none
deriving DecidableEq

/-- `enricher.py` `EnrichedMetadata`. -/
structure EnrichedMetadata where
  title : Option Str := none
  subtitle : Option Str := none
  authors : List Str := []
  description : Option Str := none
  publisher : Option Str := none
  publish_date : Option Str := none
  language : Option Str := none
  series : Option Str := none
  series_number : Option ℚ := none
  isbn : Option Str := none
  isbn13 : Option Str := none
  related_isbns : List Str := []
  ddc : Option Str := none
  ddc_normalised : Option Str := none
  lcc : Option Str := none
  subjects : List Str := []
  tags : List Str := []
  page_count : Option ℤ := none
  cover_url : Option Str := none
  openlibrary_key : Option Str := none
  google_books_id : Option Str := none
  oclc_owi : Option Str := none
  librarything_work_id : Option Str := none
  sources : List Str := []
  confidence : ℚ := 0
deriving DecidableEq

/-- `oclc.py` `normalise_ddc`: `"FIC"` maps to `"823"`, otherwise the leading
run of at most three digits (the `re.match(r"(\d{1,3})", ddc)` group)
zero-padded to three. -/
def normalise_ddc (ddc : Str) : Str :=
  if ddc.isEmpty then []
  else if pyUpper ddc = s "FIC" then s "823"
  else
    let num := (ddc.takeWhile Char.isDigit).take 3
    if num.isEmpty then []
    else zfill 3 num

/-- `_merge_results`, classification block: DDC and LCC prefer OCLC over
Open Library. -/
def mergeClassification (r : EnrichedMetadata) (oclc : Option OCLCResult)
    (ol : Option OpenLibraryResult) : EnrichedMetadata :=
  let r :=
    match oclc, ol with
    | some o, _ =>
      if truthyOpt o.ddc then
        { r with ddc := o.ddc
                 ddc_normalised := o.ddc.map normalise_ddc
                 oclc_owi := o.owi }
      else
        match ol with
        | some v =>
          if truthyList v.ddc then
            { r with ddc := v.ddc.head?, ddc_normalised := (v.ddc.head?).map normalise_ddc }
          else r
        | none => r
    | none, some v =>
      if truthyList v.ddc then
        { r with ddc := v.ddc.head?, ddc_normalised := (v.ddc.head?).map normalise_ddc }
      else r
    | none, none => r
  match oclc with
  | some o =>
    if truthyOpt o.lcc then { r with lcc := o.lcc }
    else
      match ol with
      | some v => if truthyList v.lcc then { r with lcc := v.lcc.head? } else r
      | none => r
  | none =>
    match ol with
    | some v => if truthyList v.lcc then { r with lcc := v.lcc.head? } else r
    | none => r

/-- `_merge_results`, title block: Open Library, then Google Books (which
also contributes the subtitle), then OCLC, then LibraryThing, then Calibre. -/
def mergeTitle (r : EnrichedMetadata) (oclc : Option OCLCResult)
    (ol : Option OpenLibraryResult) (google : Option GoogleBooksResult)
    (lt : Option LibraryThingResult) (calibre : Option CalibreBook) :
    EnrichedMetadata :=
  if truthyOpt (ol.bind (·.title)) then { r with title := ol.bind (·.title) }
  else if truthyOpt (google.bind (·.title)) then
    { r with title := google.bind (·.title), subtitle := google.bind (·.subtitle) }
  else if truthyOpt (oclc.bind (·.title)) then { r with title := oclc.bind (·.title) }
  else if truthyOpt (lt.bind (·.title)) then { r with title := lt.bind (·.title) }
  else if truthyOpt (calibre.map (·.title)) then { r with title := calibre.map (·.title) }
  else r

/-- `_merge_results`, authors block: same precedence as the title block. -/
def mergeAuthors (r : EnrichedMetadata) (oclc : Option OCLCResult)
    (ol : Option OpenLibraryResult) (google : Option GoogleBooksResult)
    (lt : Option LibraryThingResult) (calibre : Option CalibreBook) :
    EnrichedMetadata :=
  if truthyList ((ol.map (·.authors)).getD []) then
    { r with authors := (ol.map (·.authors)).getD [] }
  else if truthyList ((google.map (·.authors)).getD []) then
    { r with authors := (google.map (·.authors)).getD [] }
  else if truthyList ((oclc.map (·.authors)).getD []) then
    { r with authors := (oclc.map (·.authors)).getD [] }
  else if truthyList ((lt.map (·.authors)).getD []) then
    { r with authors := (lt.map (·.authors)).getD [] }
  else if truthyList ((calibre.map (·.authors)).getD []) then
    { r with authors := (calibre.map (·.authors)).getD [] }
  else r

/-- `_merge_results`, description block: Google Books, then Open Library,
then Calibre. -/
def mergeDescription (r : EnrichedMetadata) (ol : Option OpenLibraryResult)
    (google : Option GoogleBooksResult) (calibre : Option CalibreBook) :
    EnrichedMetadata :=
  if truthyOpt (google.bind (·.description)) then
    { r with description := google.bind (·.description) }
  else if truthyOpt (ol.bind (·.description)) then
    { r with description := ol.bind (·.description) }
  else if truthyOpt (calibre.bind (·.description)) then
    { r with description := calibre.bind (·.description) }
  else r

/-- `_merge_results`, publisher and publish-date blocks. -/
def mergePublisher (r : EnrichedMetadata) (ol : Option OpenLibraryResult)
    (google : Option GoogleBooksResult) (calibre : Option CalibreBook) :
    EnrichedMetadata :=
  let r :=
    if truthyList ((ol.map (·.publishers)).getD []) then
      { r with publisher := ((ol.map (·.publishers)).getD []).head? }
    else if truthyOpt (google.bind (·.publisher)) then
      { r with publisher := google.bind (·.publisher) }
    else if truthyOpt (calibre.bind (·.publisher)) then
      { r with publisher := calibre.bind (·.publisher) }
    else r
  if truthyOpt (ol.bind (·.publish_date)) then
    { r with publish_date := ol.bind (·.publish_date) }
  else if truthyOpt (google.bind (·.publish_date)) then
    { r with publish_date := google.bind (·.publish_date) }
  else r

/-- `_merge_results`, subjects block: Open Library subjects (first 10), else
Google categories, else Calibre tags (first 10). -/
def mergeSubjects (r : EnrichedMetadata) (ol : Option OpenLibraryResult)
    (google : Option GoogleBooksResult) (calibre : Option CalibreBook) :
    EnrichedMetadata :=
  if truthyList ((ol.map (·.subjects)).getD []) then
    { r with subjects := ((ol.map (·.subjects)).getD []).take 10 }
  else if truthyList ((google.map (·.categories)).getD []) then
    { r with subjects := (google.map (·.categories)).getD [] }
  else if truthyList ((calibre.map (·.tags)).getD []) then
    { r with subjects := ((calibre.map (·.tags)).getD []).take 10 }
  else r

/-- `_merge_results`, page count and language blocks. -/
def mergePageLanguage (r : EnrichedMetadata) (google : Option GoogleBooksResult)
    (calibre : Option CalibreBook) : EnrichedMetadata :=
  let r :=
    if truthyInt (google.bind (·.page_count)) then
      { r with page_count := google.bind (·.page_count) }
    else r
  if truthyOpt (google.bind (·.language)) then
    { r with language := google.bind (·.language) }
  else if truthyOpt (calibre.bind (·.language)) then
    { r with language := calibre.bind (·.language) }
  else r

/-- `_merge_results`, ISBN fill-in, Calibre part (cleaned ISBN fills a
still-missing slot). -/
def mergeIsbnsCalibre (r : EnrichedMetadata) (calibre : Option CalibreBook) :
    EnrichedMetadata :=
  match calibre with
  | some cb =>
    match cb.isbn with
    | some raw =>
      if raw.isEmpty then r
      else
        let calibre_isbn := pyUpper (raw.filter (fun c => c ≠ '-' ∧ c ≠ ' '))
        if calibre_isbn.length = 13 ∧ truthyOpt r.isbn13 = false then
          { r with isbn13 := some calibre_isbn }
        else if calibre_isbn.length = 10 ∧ truthyOpt r.isbn = false then
          { r with isbn := some calibre_isbn }
        else r
    | none => r
  | none => r

/-- `_merge_results`, ISBN fill-in, Open Library part. -/
def mergeIsbnsOl (r : EnrichedMetadata) (ol : Option OpenLibraryResult) :
    EnrichedMetadata :=
  match ol with
  | some v =>
    let r :=
      if truthyList v.isbn_10 ∧ truthyOpt r.isbn = false then
        { r with isbn := v.isbn_10.head? }
      else r
    if truthyList v.isbn_13 ∧ truthyOpt r.isbn13 = false then
      { r with isbn13 := v.isbn_13.head? }
    else r
  | none => r

/-- `_merge_results`, ISBN fill-in, Google Books part. -/
def mergeIsbnsGoogle (r : EnrichedMetadata) (google : Option GoogleBooksResult) :
    EnrichedMetadata :=
  match google with
  | some g =>
    let r :=
      if truthyOpt g.isbn_10 ∧ truthyOpt r.isbn = false then
        { r with isbn := g.isbn_10 }
      else r
    if truthyOpt g.isbn_13 ∧ truthyOpt r.isbn13 = false then
      { r with isbn13 := g.isbn_13 }
    else r
  | none => r

/-- `_merge_results`, ISBN fill-in block: Calibre (cleaned), then Open
Library, then Google Books, each only filling a still-missing slot. -/
def mergeIsbns (r : EnrichedMetadata) (ol : Option OpenLibraryResult)
    (google : Option GoogleBooksResult) (calibre : Option CalibreBook) :
    EnrichedMetadata :=
  mergeIsbnsGoogle (mergeIsbnsOl (mergeIsbnsCalibre r calibre) ol) google

/-- `_merge_results`, cover block and external-ID block. -/
def mergeCoverIds (r : EnrichedMetadata) (ol : Option OpenLibraryResult)
    (google : Option GoogleBooksResult) : EnrichedMetadata :=
  let r :=
    if truthyOpt (ol.bind (·.cover_url)) then
      { r with cover_url := ol.bind (·.cover_url) }
    else if truthyOpt (google.bind (·.cover_url)) then
      { r with cover_url := google.bind (·.cover_url) }
    else r
  let r :=
    if truthyOpt (ol.bind (·.openlibrary_key)) then
      { r with openlibrary_key := ol.bind (·.openlibrary_key) }
    else r
  if truthyOpt (google.bind (·.google_books_id)) then
    { r with google_books_id := google.bind (·.google_books_id) }
  else r

/-- `_merge_results`, LibraryThing block (work id, series, related ISBNs,
user tags) and Calibre series fallback. -/
def mergeLtCalibre (r : EnrichedMetadata) (lt : Option LibraryThingResult)
    (calibre : Option CalibreBook) : EnrichedMetadata :=
  let r :=
    match lt with
    | some v =>
      let r := if truthyOpt v.work_id then { r with librarything_work_id := v.work_id } else r
      let r :=
        if truthyOpt v.series then
          { r with series := v.series, series_number := v.series_number }
        else r
      let r := if truthyList v.related_isbns then { r with related_isbns := v.related_isbns } else r
      if truthyList v.tags then { r with tags := v.tags } else r
    | none => r
  match calibre with
  | some cb =>
    if truthyOpt r.series = false then
      if truthyOpt cb.series then
        { r with series := cb.series, series_number := cb.series_index }
      else r
    else r
  | none => r

/-- `enricher.py` `_merge_results`: all blocks, in source order. -/
def merge_results (r : EnrichedMetadata) (oclc : Option OCLCResult)
    (ol : Option OpenLibraryResult) (google : Option GoogleBooksResult)
    (lt : Option LibraryThingResult) (calibre : Option CalibreBook) :
    EnrichedMetadata :=
  let r := mergeClassification r oclc ol
  let r := mergeTitle r oclc ol google lt calibre
  let r := mergeAuthors r oclc ol google lt calibre
  let r := mergeDescription r ol google calibre
  let r := mergePublisher r ol google calibre
  let r := mergeSubjects r ol google calibre
  let r := mergePageLanguage r google calibre
  let r := mergeIsbns r ol google calibre
  let r := mergeCoverIds r ol google
  mergeLtCalibre r lt calibre

/-- `enricher.py` `_calculate_confidence`. -/
def calculate_confidence (result : EnrichedMetadata) : ℚ :=
  let score : ℚ := 0
  let max_score : ℚ := 0
  let max_score := max_score + 0.2
  let score := if truthyOpt result.title then score + 0.2 else score
  let max_score := max_score + 0.15
  let score := if truthyList result.authors then score + 0.15 else score
  let max_score := max_score + 0.25
  let score := if truthyOpt result.ddc then score + 0.25 else score
  let max_score := max_score + 0.1
  let score := if truthyOpt result.description then score + 0.1 else score
  let max_score := max_score + 0.15
  let score :=
    if result.sources.length ≥ 2 then score + 0.15
    else if result.sources.length = 1 then score + 0.07
    else score
  let max_score := max_score + 0.1
  let score := if truthyOpt result.isbn ∨ truthyOpt result.isbn13 then score + 0.1 else score
  let max_score := max_score + 0.05
  let score := if truthyOpt result.cover_url then score + 0.05 else score
  if max_score > 0 then score / max_score else 0


/-! ## Classifier (`src/librarian/classifier/`)

The subject tables, the fiction test and `classify`.  Python `dict`s become
association lists in insertion order (iteration order in CPython); the
`FICTION_DDC_CODES` set is a list used only for membership. -/

/-- `subject_mapping.py` `SUBJECT_TO_DDC` (insertion order preserved). -/
def SUBJECT_TO_DDC : List (Str × Str) := [
  (s "computer science", s "004"),
  (s "computers", s "004"),
  (s "computing", s "004"),
  (s "programming", s "005"),
  (s "computer programming", s "005"),
  (s "software", s "005"),
  (s "software development", s "005"),
  (s "software engineering", s "005"),
  (s "web development", s "006"),
  (s "artificial intelligence", s "006"),
  (s "machine learning", s "006"),
  (s "data science", s "006"),
  (s "databases", s "005"),
  (s "networking", s "004"),
  (s "cybersecurity", s "005"),
  (s "security", s "005"),
  (s "python", s "005"),
  (s "javascript", s "005"),
  (s "java", s "005"),
  (s "c++", s "005"),
  (s "ruby", s "005"),
  (s "golang", s "005"),
  (s "rust", s "005"),
  (s "philosophy", s "100"),
  (s "ethics", s "170"),
  (s "logic", s "160"),
  (s "psychology", s "150"),
  (s "self-help", s "158"),
  (s "personal development", s "158"),
  (s "motivation", s "158"),
  (s "mindfulness", s "158"),
  (s "meditation", s "158"),
  (s "religion", s "200"),
  (s "christianity", s "230"),
  (s "bible", s "220"),
  (s "islam", s "297"),
  (s "buddhism", s "294"),
  (s "hinduism", s "294"),
  (s "judaism", s "296"),
  (s "spirituality", s "204"),
  (s "mythology", s "201"),
  (s "sociology", s "301"),
  (s "social science", s "300"),
  (s "politics", s "320"),
  (s "political science", s "320"),
  (s "government", s "320"),
  (s "economics", s "330"),
  (s "business", s "650"),
  (s "finance", s "332"),
  (s "investing", s "332"),
  (s "law", s "340"),
  (s "legal", s "340"),
  (s "education", s "370"),
  (s "teaching", s "371"),
  (s "anthropology", s "301"),
  (s "archaeology", s "930"),
  (s "gender studies", s "305"),
  (s "feminism", s "305"),
  (s "language", s "400"),
  (s "linguistics", s "410"),
  (s "grammar", s "415"),
  (s "english language", s "420"),
  (s "french language", s "440"),
  (s "german language", s "430"),
  (s "spanish language", s "460"),
  (s "translation", s "418"),
  (s "science", s "500"),
  (s "mathematics", s "510"),
  (s "math", s "510"),
  (s "algebra", s "512"),
  (s "geometry", s "516"),
  (s "calculus", s "515"),
  (s "statistics", s "519"),
  (s "physics", s "530"),
  (s "chemistry", s "540"),
  (s "biology", s "570"),
  (s "evolution", s "576"),
  (s "genetics", s "576"),
  (s "ecology", s "577"),
  (s "astronomy", s "520"),
  (s "cosmology", s "523"),
  (s "geology", s "551"),
  (s "earth science", s "550"),
  (s "meteorology", s "551"),
  (s "climate", s "551"),
  (s "botany", s "580"),
  (s "zoology", s "590"),
  (s "technology", s "600"),
  (s "engineering", s "620"),
  (s "medicine", s "610"),
  (s "health", s "613"),
  (s "nutrition", s "613"),
  (s "cooking", s "641"),
  (s "cookbooks", s "641"),
  (s "recipes", s "641"),
  (s "food", s "641"),
  (s "agriculture", s "630"),
  (s "gardening", s "635"),
  (s "pets", s "636"),
  (s "manufacturing", s "670"),
  (s "building", s "690"),
  (s "construction", s "690"),
  (s "automotive", s "629"),
  (s "aviation", s "629"),
  (s "electronics", s "621"),
  (s "art", s "700"),
  (s "arts", s "700"),
  (s "fine arts", s "700"),
  (s "drawing", s "741"),
  (s "painting", s "750"),
  (s "sculpture", s "730"),
  (s "photography", s "770"),
  (s "music", s "780"),
  (s "film", s "791"),
  (s "movies", s "791"),
  (s "cinema", s "791"),
  (s "television", s "791"),
  (s "theater", s "792"),
  (s "theatre", s "792"),
  (s "drama", s "792"),
  (s "dance", s "793"),
  (s "games", s "794"),
  (s "sports", s "796"),
  (s "recreation", s "790"),
  (s "crafts", s "745"),
  (s "architecture", s "720"),
  (s "literature", s "800"),
  (s "poetry", s "808"),
  (s "essays", s "808"),
  (s "literary criticism", s "801"),
  (s "literary collections", s "808"),
  (s "fiction", s "823"),
  (s "english fiction", s "823"),
  (s "british fiction", s "823"),
  (s "american fiction", s "813"),
  (s "french fiction", s "843"),
  (s "german fiction", s "833"),
  (s "spanish fiction", s "863"),
  (s "russian fiction", s "891"),
  (s "japanese fiction", s "895"),
  (s "chinese fiction", s "895"),
  (s "science fiction", s "823"),
  (s "fantasy", s "823"),
  (s "mystery", s "823"),
  (s "thriller", s "823"),
  (s "romance", s "823"),
  (s "horror", s "823"),
  (s "historical fiction", s "823"),
  (s "literary fiction", s "823"),
  (s "young adult", s "823"),
  (s "ya", s "823"),
  (s "children\x27s fiction", s "823"),
  (s "adventure", s "823"),
  (s "dystopian", s "823"),
  (s "crime", s "823"),
  (s "detective", s "823"),
  (s "suspense", s "823"),
  (s "action", s "823"),
  (s "urban fantasy", s "823"),
  (s "epic fantasy", s "823"),
  (s "space opera", s "823"),
  (s "cyberpunk", s "823"),
  (s "steampunk", s "823"),
  (s "history", s "900"),
  (s "world history", s "909"),
  (s "european history", s "940"),
  (s "british history", s "941"),
  (s "american history", s "973"),
  (s "asian history", s "950"),
  (s "african history", s "960"),
  (s "ancient history", s "930"),
  (s "medieval history", s "940"),
  (s "modern history", s "909"),
  (s "geography", s "910"),
  (s "travel", s "910"),
  (s "biography", s "920"),
  (s "autobiography", s "920"),
  (s "memoir", s "920"),
  (s "memoirs", s "920")
]


/-- `classifier.py` `DDC_NAMES`. -/
def DDC_NAMES : List (Str × Str) := [
  (s "000", s "Computer Science & Information"),
  (s "001", s "Knowledge"),
  (s "002", s "The Book"),
  (s "003", s "Systems"),
  (s "004", s "Data Processing & Computer Science"),
  (s "005", s "Computer Programming"),
  (s "006", s "Special Computer Methods"),
  (s "010", s "Bibliographies"),
  (s "020", s "Library & Information Science"),
  (s "030", s "Encyclopaedias"),
  (s "100", s "Philosophy"),
  (s "110", s "Metaphysics"),
  (s "120", s "Epistemology"),
  (s "130", s "Parapsychology & Occultism"),
  (s "140", s "Philosophical Schools"),
  (s "150", s "Psychology"),
  (s "160", s "Logic"),
  (s "170", s "Ethics"),
  (s "180", s "Ancient & Medieval Philosophy"),
  (s "190", s "Modern Philosophy"),
  (s "200", s "Religion"),
  (s "210", s "Philosophy of Religion"),
  (s "220", s "The Bible"),
  (s "230", s "Christianity"),
  (s "240", s "Christian Practice"),
  (s "250", s "Christian Ministry"),
  (s "260", s "Christian Organisation"),
  (s "270", s "Church History"),
  (s "280", s "Christian Denominations"),
  (s "290", s "Other Religions"),
  (s "300", s "Social Sciences"),
  (s "310", s "Statistics"),
  (s "320", s "Political Science"),
  (s "330", s "Economics"),
  (s "340", s "Law"),
  (s "350", s "Public Administration"),
  (s "360", s "Social Services"),
  (s "370", s "Education"),
  (s "380", s "Commerce"),
  (s "390", s "Customs & Folklore"),
  (s "400", s "Language"),
  (s "410", s "Linguistics"),
  (s "420", s "English Language"),
  (s "430", s "German Language"),
  (s "440", s "French Language"),
  (s "450", s "Italian Language"),
  (s "460", s "Spanish Language"),
  (s "470", s "Latin"),
  (s "480", s "Greek"),
  (s "490", s "Other Languages"),
  (s "500", s "Science"),
  (s "510", s "Mathematics"),
  (s "520", s "Astronomy"),
  (s "530", s "Physics"),
  (s "540", s "Chemistry"),
  (s "550", s "Earth Sciences"),
  (s "560", s "Palaeontology"),
  (s "570", s "Biology"),
  (s "580", s "Botany"),
  (s "590", s "Zoology"),
  (s "600", s "Technology"),
  (s "610", s "Medicine"),
  (s "620", s "Engineering"),
  (s "630", s "Agriculture"),
  (s "640", s "Home Economics"),
  (s "641", s "Food & Drink"),
  (s "650", s "Business"),
  (s "660", s "Chemical Engineering"),
  (s "670", s "Manufacturing"),
  (s "680", s "Specific Manufacturing"),
  (s "690", s "Building"),
  (s "700", s "Arts"),
  (s "710", s "Landscape & Area Planning"),
  (s "720", s "Architecture"),
  (s "730", s "Sculpture"),
  (s "740", s "Drawing & Decorative Arts"),
  (s "750", s "Painting"),
  (s "760", s "Graphic Arts"),
  (s "770", s "Photography"),
  (s "780", s "Music"),
  (s "790", s "Recreation"),
  (s "800", s "Literature"),
  (s "810", s "American Literature"),
  (s "813", s "American Fiction"),
  (s "820", s "English Literature"),
  (s "823", s "English Fiction"),
  (s "830", s "German Literature"),
  (s "840", s "French Literature"),
  (s "850", s "Italian Literature"),
  (s "860", s "Spanish Literature"),
  (s "870", s "Latin Literature"),
  (s "880", s "Greek Literature"),
  (s "890", s "Other Literatures"),
  (s "900", s "History & Geography"),
  (s "910", s "Geography & Travel"),
  (s "920", s "Biography"),
  (s "930", s "Ancient History"),
  (s "940", s "European History"),
  (s "950", s "Asian History"),
  (s "960", s "African History"),
  (s "970", s "North American History"),
  (s "980", s "South American History"),
  (s "990", s "Pacific & Polar History")
]

/-- `classifier.py` `FICTION_DDC_CODES` (a set; only membership is used). -/
def FICTION_DDC_CODES : List Str := [s "813", s "823", s "833", s "843", s "853", s "863", s "873", s "883", s "893", s "810", s "820", s "830", s "840", s "850", s "860", s "870", s "880", s "890", s "800"]

/-- `classifier.py` `GENRE_KEYWORDS` (insertion order preserved). -/
def GENRE_KEYWORDS : List (Str × List Str) := [
  (s "Fantasy", [s "fantasy", s "magic", s "dragons", s "wizards", s "epic fantasy", s "urban fantasy"]),
  (s "Science Fiction", [s "science fiction", s "sci-fi", s "scifi", s "space opera", s "dystopia", s "cyberpunk"]),
  (s "Mystery", [s "mystery", s "detective", s "crime fiction", s "whodunit", s "cozy mystery"]),
  (s "Thriller", [s "thriller", s "suspense", s "psychological thriller"]),
  (s "Romance", [s "romance", s "love stories", s "romantic", s "contemporary romance"]),
  (s "Horror", [s "horror", s "supernatural", s "gothic", s "dark fantasy"]),
  (s "Historical Fiction", [s "historical fiction", s "historical novel"]),
  (s "Literary Fiction", [s "literary fiction", s "literary", s "contemporary fiction"]),
  (s "Adventure", [s "adventure", s "action adventure"]),
  (s "Young Adult", [s "young adult", s "ya fiction", s "teen fiction"]),
  (s "Children\x27s", [s "children\x27s fiction", s "juvenile fiction", s "middle grade"])
]

/-- Lookup in an association list (Python `dict[key]` / `dict.get(key)`). -/
def assocFind (d : List (Str × Str)) (k : Str) : Option Str :=
  (d.find? (fun kv => decide (kv.1 = k))).map (·.2)

/-- Well-formedness of a subject-table key: non-empty with non-whitespace
endpoints (checked once over the whole table by computation). -/
def keyOkB (k : Str) : Bool :=
  !k.isEmpty && (k.head?.all (fun ch => !ch.isWhitespace)) &&
    (k.getLast?.all (fun ch => !ch.isWhitespace))

/-- `classifier.py` local `fiction_indicators` of `_is_fiction`. -/
def fiction_indicators : List Str :=
  [ s "fiction", s "novel", s "stories", s "fantasy", s "science fiction",
    s "mystery", s "thriller", s "romance", s "horror" ]

/-- Stable insertion into a sorted list (used to model Python `sorted` and
SQL `ORDER BY`; structural recursion so that terms evaluate by reduction). -/
def insertSorted {α : Type} (le : α → α → Bool) (x : α) : List α → List α
  | [] => [x]
  | y :: ys => if le x y then x :: y :: ys else y :: insertSorted le x ys

/-- Stable sort by a boolean `le`. -/
def sortBy {α : Type} (le : α → α → Bool) (l : List α) : List α :=
  l.foldr (insertSorted le) []

/-- Strict lexicographic comparison of strings by code point (Python `<`). -/
def strLtB : Str → Str → Bool
  | [], [] => false
  | [], _ :: _ => true
  | _ :: _, [] => false
  | a :: as, b :: bs => if a.val < b.val then true else if a.val = b.val then strLtB as bs else false

/-- `classifier.py` `ClassificationResult`. -/
structure ClassificationResult where
  ddc : Option Str := none
  ddc_name : Option Str := none
  source : Option Str := none
  confidence : ℚ := 0
  needs_review : Bool := false
  is_fiction : Bool := false
  genres : Option (List Str) := none
deriving DecidableEq

/-- `subject_mapping.py` `classify_from_subjects`: first subject with a
direct key match or with any table key as a substring wins. -/
def classify_from_subjects (subjects : List Str) : Option Str :=
  subjects.findSome? (fun subject =>
    let normalised := pyStrip (pyLower subject)
    match assocFind SUBJECT_TO_DDC normalised with
    | some ddc => some ddc
    | none =>
      SUBJECT_TO_DDC.findSome? (fun kv =>
        if pyIn kv.1 normalised then some kv.2 else none))

/-- `category.replace("/", "|").replace(">", "|")`, character-wise. -/
def replaceSep (c : Char) : Char := if c = '/' ∨ c = '>' then '|' else c

/-- `subject_mapping.py` `classify_from_categories`: split hierarchical
category strings on `/`, `>` and `|`, and look each part up directly. -/
def classify_from_categories (categories : List Str) : Option Str :=
  categories.findSome? (fun category =>
    let parts := splitChar '|' (category.map replaceSep)
    parts.findSome? (fun part =>
      assocFind SUBJECT_TO_DDC (pyStrip (pyLower part))))

/-- `classifier.py` `_is_fiction`. -/
def is_fiction (ddc : Option Str) (subjects : List Str) : Bool :=
  (match ddc with
   | some d =>
     if !d.isEmpty then
       let ddc_pre := if d.length ≥ 3 then d.take 3 else zfill 3 d
       FICTION_DDC_CODES.any (fun c => decide (c = ddc_pre))
     else false
   | none => false)
  || fiction_indicators.any (fun ind =>
       subjects.any (fun subj => pyIn ind (pyLower subj)))

/-- `classifier.py` `_extract_genres`: genre keys any of whose keywords occur
in some lowered subject, sorted alphabetically (Python `sorted` on the set). -/
def extract_genres (subjects : List Str) : List Str :=
  if subjects.isEmpty then []
  else
    let subjects_lower := subjects.map pyLower
    let genres := (GENRE_KEYWORDS.filter (fun gk =>
      gk.2.any (fun kw => subjects_lower.any (fun subj => pyIn kw subj)))).map (·.1)
    sortBy (fun a b => !strLtB b a) genres

/-- `classifier.py` `_get_ddc_name`: exact match, then the 2-digit prefix
padded with one zero, then the 1-digit prefix padded with two. -/
def get_ddc_name (ddc : Str) : Str :=
  if ddc.isEmpty then []
  else
    match assocFind DDC_NAMES ddc with
    | some n => n
    | none =>
      match assocFind DDC_NAMES (ddc.take 2 ++ s "0") with
      | some n => n
      | none =>
        match assocFind DDC_NAMES (ddc.take 1 ++ s "00") with
        | some n => n
        | none => []

/-- The code-resolution chain of `classifier.py` `classify` (API DDC, then
subject lookup, then categories lookup, then mark for review). -/
def classifyBase (enriched : EnrichedMetadata) : ClassificationResult :=
  let result : ClassificationResult := {}
  if truthyOpt enriched.ddc_normalised then
    let src := if enriched.sources.contains (s "oclc") then s "oclc" else s "openlibrary"
    { result with
        ddc := enriched.ddc_normalised
        source := some src
        confidence := if src = s "oclc" then mkRat 95 100 else mkRat 85 100
        ddc_name := some (get_ddc_name (enriched.ddc_normalised.getD [])) }
  else
    match classify_from_subjects enriched.subjects with
    | some d =>
      { result with
          ddc := some d
          source := some (s "subject_mapping")
          confidence := mkRat 6 10
          ddc_name := some (get_ddc_name d) }
    | none =>
      match classify_from_categories enriched.subjects with
      | some d =>
        { result with
            ddc := some d
            source := some (s "subject_mapping")
            confidence := mkRat 5 10
            ddc_name := some (get_ddc_name d) }
      | none => { result with needs_review := true, confidence := 0 }

/-- `classifier.py` `classify`: the code-resolution chain followed by the
fiction detection and confidence boost. -/
def classify (enriched : EnrichedMetadata) : ClassificationResult :=
  let result := classifyBase enriched
  let fic := is_fiction result.ddc enriched.subjects
  let result := { result with is_fiction := fic }
  if fic then
    let result := { result with genres := some (extract_genres enriched.subjects) }
    if result.confidence < mkRat 5 10 then
      { result with confidence := mkRat 6 10, needs_review := false }
    else result
  else result

/-! ## ISBN scanning (`src/librarian/inspector/metadata.py` lines 59-78)

`re.finditer` over the two ISBN regexes is external to the embedding: the two
lists below are the captured `group(1)` strings of the ISBN-13 and ISBN-10
patterns, in match order.  The loops that normalise, deduplicate and filter
them are the source's own code. -/

/-- `re.sub(r"[-\s]", "", match).upper()`. -/
def normIsbn (m : Str) : Str :=
  pyUpper (m.filter (fun c => !(c = '-' ∨ c.isWhitespace)))

/-- The ISBN-13 loop body of `extract_isbns_from_text`. -/
def isbn13Step (isbns : List Str) (m : Str) : List Str :=
  let isbn := normIsbn m
  if isbn.length = 13 ∧ isbns.contains isbn = false then isbns ++ [isbn]
  else isbns

/-- The ISBN-10 loop body of `extract_isbns_from_text` (discards ISBN-10s
that are substrings of an already-found ISBN-13). -/
def isbn10Step (isbns : List Str) (m : Str) : List Str :=
  let isbn := normIsbn m
  if isbn.length = 10 ∧ isbns.contains isbn = false then
    let is_sub := isbns.any (fun isbn13 =>
      if isbn13.length = 13 then pyIn isbn isbn13 else false)
    if is_sub = false then isbns ++ [isbn] else isbns
  else isbns

/-- `metadata.py` `extract_isbns_from_text`, applied to the capture lists of
the two regex passes. -/
def extract_isbns_from_text (matches13 matches10 : List Str) : List Str :=
  let isbns := matches13.foldl isbn13Step []
  matches10.foldl isbn10Step isbns

/-! ## Scanner duplicate pass (`src/librarian/inspector/scanner.py`)

`SourceFile` is the Intake Record (`db/models.py`); timestamps are not
modelled.  The extracted-metadata JSON bag is modelled by the keys the filer
and the duplicate heuristic read. -/

/-- The keys of `SourceFile.extracted_metadata` that the pipeline reads. -/
structure MetaBag where
  title : Option Str := none
  authors : List Str := []
  series : Option Str := none
  series_index : Option ℚ := none
deriving DecidableEq

/-- The Intake Record row. -/
structure SourceFile where
  id : Nat
  source_path : PathT
  filename : Str
  format : Str
  size_bytes : Nat
  checksum_md5 : Str
  checksum_sha256 : Str
  status : Str
  extracted_metadata : Option MetaBag := none
  migrated_file_id : Option Nat := none
  duplicate_of_id : Option Nat := none
  error_message : Option Str := none
deriving DecidableEq

/-- The key of `_select_best_copy`'s local `score`:
`(has_title + has_authors, format_score, -len(filename))`. -/
def best_copy_score (f : SourceFile) : ℤ × ℤ × ℤ :=
  let meta := f.extracted_metadata.getD {}
  let has_title : ℤ := if truthyOpt meta.title then 1 else 0
  let has_authors : ℤ := if truthyList meta.authors then 1 else 0
  let format_score : ℤ :=
    if f.format = s "epub" then 3
    else if f.format = s "pdf" then 2
    else if f.format = s "mobi" then 1
    else 0
  let name_score : ℤ := -(f.filename.length : ℤ)
  (has_title + has_authors, format_score, name_score)

/-- Python `<` on triples (lexicographic). -/
def scoreLtB (a b : ℤ × ℤ × ℤ) : Bool :=
  if a.1 < b.1 then true
  else if a.1 = b.1 then
    if a.2.1 < b.2.1 then true
    else if a.2.1 = b.2.1 then a.2.2 < b.2.2
    else false
  else false

/-- `scanner.py` `_select_best_copy`: Python `max(files, key=score)` keeps
the earliest element among those with the maximal key. -/
def select_best_copy (f : SourceFile) (rest : List SourceFile) : SourceFile :=
  rest.foldl
    (fun best x => if scoreLtB (best_copy_score best) (best_copy_score x) then x else best) f

/-- The per-checksum-group body of `identify_duplicates` (lines 222-232):
groups of size ≤ 1 are skipped, otherwise every member other than the best
copy becomes `duplicate` pointing at it. -/
def process_duplicate_group (files : List SourceFile) : List SourceFile :=
  match files with
  | [] => []
  | f :: rest =>
    if rest.isEmpty then f :: rest
    else
      let primary := select_best_copy f rest
      (f :: rest).map (fun x =>
        if x.id ≠ primary.id then
          { x with status := s "duplicate", duplicate_of_id := some primary.id }
        else x)

/-! ## Filer (`src/librarian/filer/filer.py`)

The catalogue session is a value holding the row lists and the id counters
(`flush` assigns ids; the model assigns them eagerly at row creation).  The
naming helpers (`naming.py`), the format table (`formats.py`) and the cover
extraction/download/normalisation chain (`covers.py`) are collaborators of
`file_item` and enter as abstract parameters in `FilerEnv`; `file_item`'s own
control flow is embedded statement by statement. -/

/-- The catalogue `files` row. -/
structure FileRec where
  id : Nat
  item_id : Nat
  file_path : Str
  format : Str
  size_bytes : Nat
  checksum_md5 : Str
  checksum_sha256 : Str
  metadata_extracted : Bool
deriving DecidableEq

/-- `Item.identifiers` JSON bag as written by `_find_or_create_item`. -/
structure IdentifiersBag where
  openlibrary : Option Str
  google_books : Option Str
  oclc_owi : Option Str
  is_fiction : Bool
deriving DecidableEq

/-- The catalogue `items` row (fields written by the filer). -/
structure Item where
  id : Nat
  title : Str
  sort_title : Str
  subtitle : Option Str
  classification_code : Option Str
  media_type : Str
  isbn : Option Str
  isbn13 : Option Str
  description : Option Str
  publisher : Option Str
  language : Str
  series_name : Option Str
  series_index : Option ℚ
  tags : Option (List Str)
  page_count : Option ℤ
  identifiers : IdentifiersBag
  cover_path : Option Str
deriving DecidableEq

/-- The catalogue `creators` row. -/
structure Creator where
  id : Nat
  name : Str
  sort_name : Str
deriving DecidableEq

/-- The `item_creators` join row. -/
structure ItemCreator where
  item_id : Nat
  creator_id : Nat
  role : Str
  position : Nat
deriving DecidableEq

/-- The `classifications` row. -/
structure Classification where
  code : Str
  name : Str
  parent_code : Option Str
  system : Str
deriving DecidableEq

/-- The catalogue session state. -/
structure DB where
  files : List FileRec := []
  items : List Item := []
  creators : List Creator := []
  item_creators : List ItemCreator := []
  classifications : List Classification := []
  nextFileId : Nat := 1
  nextItemId : Nat := 1
  nextCreatorId : Nat := 1

/-- `str(path.relative_to(root))`. -/
def relTo (p root : Str) : Str := p.drop (root.length + 1)

/-- `filer.py` `DDC_CLASS_NAMES`. -/
def DDC_CLASS_NAMES : List (Str × Str) := [
  (s "000", s "Computer Science, Information & General Works"),
  (s "100", s "Philosophy & Psychology"),
  (s "200", s "Religion"),
  (s "300", s "Social Sciences"),
  (s "400", s "Language"),
  (s "500", s "Science"),
  (s "600", s "Technology"),
  (s "700", s "Arts & Recreation"),
  (s "800", s "Literature"),
  (s "900", s "History & Geography")
]

/-- `filer.py` `_generate_sort_title`. -/
def generate_sort_title (title : Str) : Str :=
  if title.isEmpty then []
  else if (s "the ").isPrefixOf (pyLower title) then pyStrip (title.drop 4)
  else if (s "a ").isPrefixOf (pyLower title) then pyStrip (title.drop 2)
  else if (s "an ").isPrefixOf (pyLower title) then pyStrip (title.drop 3)
  else title

/-- Python `str.rsplit(sep, 1)` when the separator occurs: the parts around
the last occurrence. -/
def rsplitLast (sep : Char) (x : Str) : Option (Str × Str) :=
  if x.contains sep then
    let after := (x.reverse.takeWhile (fun c => c ≠ sep)).reverse
    let before := x.take (x.length - after.length - 1)
    some (before, after)
  else none

/-- `filer.py` `_generate_sort_name`. -/
def generate_sort_name (name : Str) : Str :=
  if name.isEmpty then []
  else if pyIn (s ", ") name then name
  else
    match rsplitLast ' ' name with
    | some (first, last) => last ++ s ", " ++ first
    | none => name

/-- `filer.py` `_find_or_create_creator`. -/
def find_or_create_creator (db : DB) (name : Str) : DB × Creator :=
  let normalised := pyStrip name
  match db.creators.find? (fun c => decide (c.name = normalised)) with
  | some c => (db, c)
  | none =>
    let sort_name := generate_sort_name normalised
    let creator : Creator := ⟨db.nextCreatorId, normalised, sort_name⟩
    ({ db with creators := db.creators ++ [creator]
               nextCreatorId := db.nextCreatorId + 1 },
     creator)

/-- The creators of an item with role `author`, ordered by position (the
`Creator.join(ItemCreator)` query of `_find_by_title_and_author`). -/
def authorsOf (db : DB) (item_id : Nat) : List Creator :=
  let links := db.item_creators.filter
    (fun ic => decide (ic.item_id = item_id) && decide (ic.role = s "author"))
  let sorted := sortBy (fun a b => decide (a.position ≤ b.position)) links
  sorted.filterMap (fun ic => db.creators.find? (fun c => decide (c.id = ic.creator_id)))

/-- `filer.py` `_find_by_title_and_author`.  `ilike` without wildcard
characters is modelled as case-insensitive equality. -/
def find_by_title_and_author (db : DB) (title : Str) (authors : List Str) :
    Option Item :=
  if title.isEmpty then none
  else
    let normalised_title := pyLower (pyStrip title)
    let candidates := db.items.filter (fun it => decide (pyLower it.title = normalised_title))
    if candidates.isEmpty then none
    else
      match authors with
      | first :: _ =>
        let first_author := pyLower (pyStrip first)
        candidates.findSome? (fun candidate =>
          match authorsOf db candidate.id with
          | [] => none
          | c :: _ =>
            if pyLower (pyStrip c.name) = first_author then some candidate else none)
      | [] =>
        match candidates with
        | [c] => some c
        | _ => none

/-- `filer.py` `_ensure_classification_exists`. -/
def ensure_classification_exists (db : DB) (ddc_code : Option Str) : DB :=
  match ddc_code with
  | none => db
  | some d =>
    if d.isEmpty then db
    else if (db.classifications.find? (fun c => decide (c.code = d))).isSome then db
    else
      let code := if d.length < 3 then zfill 3 d else d
      let top_level := code.take 1 ++ s "00"
      let class_name := (assocFind DDC_CLASS_NAMES top_level).getD (s "General")
      let name := class_name ++ s " - " ++ code
      let parent_code :=
        if code.length ≥ 3 then
          let pc := code.take 1 ++ s "10"
          if (db.classifications.find? (fun c => decide (c.code = pc))).isSome then some pc
          else some (code.take 1 ++ s "00")
        else none
      { db with classifications :=
          db.classifications ++ [⟨d, name, parent_code, s "ddc"⟩] }

/-- Python truthiness of an optional string list. -/
def truthyListOpt : Option (List Str) → Bool
  | none => false
  | some l => !l.isEmpty

/-- The author-loop body of `_find_or_create_item` (deduplicated creator
linking; the state is the session, the seen set and the next position). -/
def authorStep (item_id : Nat) (st : DB × List Str × Nat) (author_name : Str) :
    DB × List Str × Nat :=
  let (db, seen, position) := st
  let normalised := pyStrip author_name
  if seen.contains (pyLower normalised) then (db, seen, position)
  else
    let seen := seen ++ [pyLower normalised]
    let (db, creator) := find_or_create_creator db author_name
    let ic : ItemCreator := ⟨item_id, creator.id, s "author", position⟩
    ({ db with item_creators := db.item_creators ++ [ic] }, seen, position + 1)

/-- The item-creation tail of `_find_or_create_item` (new row plus author
links). -/
def fociCreate (db : DB) (title : Str) (authors : List Str)
    (enriched : EnrichedMetadata) (classification : ClassificationResult)
    (media_type : Str) (series : Option Str) (series_index : Option ℚ)
    (tags : Option (List Str)) : DB × Item :=
  let item : Item := {
    id := db.nextItemId
    title := title
    sort_title := generate_sort_title title
    subtitle := enriched.subtitle
    classification_code := classification.ddc
    media_type := media_type
    isbn := enriched.isbn
    isbn13 := enriched.isbn13
    description := enriched.description
    publisher := enriched.publisher
    language := if truthyOpt enriched.language then enriched.language.getD [] else s "en"
    series_name := series
    series_index := series_index
    tags := tags
    page_count := enriched.page_count
    identifiers := ⟨enriched.openlibrary_key, enriched.google_books_id,
                    enriched.oclc_owi, classification.is_fiction⟩
    cover_path := none }
  let db := { db with items := db.items ++ [item], nextItemId := db.nextItemId + 1 }
  let st := authors.foldl (authorStep item.id) (db, [], 0)
  (st.1, item)

/-- `filer.py` `_find_or_create_item`. -/
def find_or_create_item (db : DB) (title : Str) (authors : List Str)
    (enriched : EnrichedMetadata) (classification : ClassificationResult)
    (media_type : Str) (series : Option Str) (series_index : Option ℚ) :
    DB × Item :=
  let db := ensure_classification_exists db classification.ddc
  let byIsbn13 : Option Item :=
    if truthyOpt enriched.isbn13 then
      db.items.find? (fun it => decide (it.isbn13 = enriched.isbn13))
    else none
  match byIsbn13 with
  | some it => (db, it)
  | none =>
    let byIsbn : Option Item :=
      if truthyOpt enriched.isbn then
        db.items.find? (fun it => decide (it.isbn = enriched.isbn))
      else none
    match byIsbn with
    | some it => (db, it)
    | none =>
      match find_by_title_and_author db title authors with
      | some it => (db, it)
      | none =>
        let tags : Option (List Str) :=
          if classification.is_fiction = true ∧ truthyListOpt classification.genres then
            classification.genres
          else if truthyList enriched.subjects then some (enriched.subjects.take 10)
          else none
        fociCreate db title authors enriched classification media_type series series_index tags

/-- The collaborators `file_item` calls, as abstract parameters: the digest
function, the `config.py` settings it reads, the `naming.py` generators, the
`formats.py` media-type table, and the cover bytes that the
extract/download/process chain of `covers.py` would produce. -/
structure FilerEnv where
  md5 : Content → Str
  author_format : Str
  library_root : Str
  returns_dir : Str
  generate_folder_name : Str → List Str → Option Str → Option ℚ → Str → Str
  generate_filename : Str → List Str → Option Str → Option ℚ → Str → Str → Str
  generate_path : Option Str → Str → Str → Str → Bool → PathT
  title_from_filename : Str → Str
  get_media_type : Str → Str
  cover_data : PathT → Str → Option Str → Option Content

/-- `filer.py` `_save_cover_to_folder`: write the processed cover bytes (when
any) to `item_folder/cover.jpg` and return its library-relative path. -/
def save_cover_to_folder (env : FilerEnv) (fs : FS) (source_path : PathT)
    (file_format : Str) (cover_url : Option Str) (item_folder : Str) :
    FS × Option Str :=
  match env.cover_data source_path file_format cover_url with
  | none => (fs, none)
  | some processed =>
    let cover_path : PathT := ⟨item_folder, s "cover", s ".jpg"⟩
    (fsSet fs cover_path.render processed,
     some (relTo cover_path.render env.library_root))

/-- The state and result of one `file_item` call. -/
structure FileItemOut where
  db : DB
  fs : FS
  sf : SourceFile
  item : Option Item
  file : Option FileRec

/-- The display title resolved at the top of `file_item` (enriched title,
else a title derived from the filename). -/
def fileItemTitle (env : FilerEnv) (sf : SourceFile) (enriched : EnrichedMetadata) :
    Str :=
  if truthyOpt enriched.title then enriched.title.getD []
  else env.title_from_filename sf.filename

/-- The series name and index `file_item` reads from the extracted-metadata
bag. -/
def fileItemSeries (sf : SourceFile) : Option Str × Option ℚ :=
  let extracted := sf.extracted_metadata.getD {}
  (if truthyOpt extracted.series then extracted.series else none,
   if truthyOpt extracted.series then extracted.series_index else none)

/-- The canonical target path `file_item` computes before the uniqueness
check. -/
def fileItemTarget (env : FilerEnv) (sf : SourceFile) (enriched : EnrichedMetadata)
    (classification : ClassificationResult) : PathT :=
  let title := fileItemTitle env sf enriched
  let authors := enriched.authors
  let (series, series_index) := fileItemSeries sf
  let folder_name := env.generate_folder_name title authors series series_index env.author_format
  let filename := env.generate_filename title authors series series_index sf.format env.author_format
  env.generate_path classification.ddc folder_name filename
    env.library_root classification.is_fiction

/-- `filer.py` `file_item`. -/
def file_item (env : FilerEnv) (db : DB) (fs : FS) (sf : SourceFile)
    (enriched : EnrichedMetadata) (classification : ClassificationResult)
    (dry_run : Bool) : Except Str FileItemOut :=
  let title := fileItemTitle env sf enriched
  let authors := enriched.authors
  let (series, series_index) := fileItemSeries sf
  let target_path := fileItemTarget env sf enriched classification
  match db.files.find? (fun f => decide (f.checksum_md5 = sf.checksum_md5)) with
  | some existing_file =>
    -- Already migrated - this is a duplicate
    let sf := { sf with status := s "duplicate", migrated_file_id := some existing_file.id }
    let fs := if dry_run then fs else fsDel fs sf.source_path.render
    .ok ⟨db, fs, sf,
         db.items.find? (fun it => decide (it.id = existing_file.item_id)),
         some existing_file⟩
  | none =>
    match ensure_unique_path fs target_path with
    | .error e => .error e
    | .ok target_path =>
      let item_folder := target_path.dir
      let (db, item) := find_or_create_item db title authors enriched classification
                          (env.get_media_type sf.format) series series_index
      if dry_run then
        let file_record : FileRec := {
          id := 0
          item_id := 0
          file_path := relTo target_path.render env.library_root
          format := sf.format
          size_bytes := sf.size_bytes
          checksum_md5 := sf.checksum_md5
          checksum_sha256 := sf.checksum_sha256
          metadata_extracted := true }
        .ok ⟨db, fs, sf, some item, some file_record⟩
      else
        -- Extract cover BEFORE the source file is removed
        let (fs, cover_path) :=
          if truthyOpt item.cover_path = false then
            save_cover_to_folder env fs sf.source_path sf.format enriched.cover_url item_folder
          else (fs, none)
        -- Now do the copy-verify-remove
        match copy_verify_remove env.md5 fs sf.source_path target_path
                (some sf.checksum_md5) (some env.returns_dir) with
        | .error _ =>
          let sf := { sf with status := s "failed", error_message := some (s "Copy failed") }
          .ok ⟨db, fs, sf, none, none⟩
        | .ok (fs, success) =>
          if success = false then
            let sf := { sf with status := s "failed"
                                error_message := some (s "Copy verification failed") }
            .ok ⟨db, fs, sf, none, none⟩
          else
            let item := if truthyOpt cover_path then { item with cover_path := cover_path } else item
            let db := { db with items := db.items.map (fun (it : Item) => if it.id = item.id then item else it) }
            let file_record : FileRec := {
              id := db.nextFileId
              item_id := item.id
              file_path := relTo target_path.render env.library_root
              format := sf.format
              size_bytes := sf.size_bytes
              checksum_md5 := sf.checksum_md5
              checksum_sha256 := sf.checksum_sha256
              metadata_extracted := true }
            let db := { db with files := db.files ++ [file_record]
                                nextFileId := db.nextFileId + 1 }
            -- `source_file.migrated_file_id = file_record.id` reads the primary
            -- key of the just-added, never-flushed row: SQLAlchemy yields `None`
            -- there (the session is flushed for `item.id` but not for
            -- `file_record`), so the migrated record's link stays NULL.
            let sf := { sf with status := s "migrated", migrated_file_id := none }
            .ok ⟨db, fs, sf, some item, some file_record⟩


/-- The weighted sum named by the spec: title 0.20, authors 0.15, subject
code 0.25, description 0.10, source-count signal (0.15 for at least two
sources, 0.07 for exactly one), identifier 0.10, cover URL 0.05. -/
def confidenceSpecScore (r : EnrichedMetadata) : ℚ :=
  (if truthyOpt r.title then 0.2 else 0) +
  (if truthyList r.authors then 0.15 else 0) +
  (if truthyOpt r.ddc then 0.25 else 0) +
  (if truthyOpt r.description then 0.1 else 0) +
  (if r.sources.length ≥ 2 then 0.15 else if r.sources.length = 1 then 0.07 else 0) +
  (if truthyOpt r.isbn ∨ truthyOpt r.isbn13 then 0.1 else 0) +
  (if truthyOpt r.cover_url then 0.05 else 0)

/-- The total possible weight of the spec's signals. -/
def confidenceTotalWeight : ℚ := 0.2 + 0.15 + 0.25 + 0.1 + 0.15 + 0.1 + 0.05

/-- Claim-side helper: the first truthy candidate in a fixed order. -/
def firstTruthy (cands : List (Option Str)) : Option Str :=
  cands.findSome? (fun c => if truthyOpt c then c else none)

/-- Claim-side: the classification code OCLC offers (when present and
non-empty). -/
def oclcCodeCandidate (oclc : Option OCLCResult) : Option Str :=
  match oclc with
  | some o => if truthyOpt o.ddc then o.ddc else none
  | none => none

/-- Claim-side: the classification code Open Library offers (the head of its
DDC list, when present and non-empty). -/
def olCodeCandidate (ol : Option OpenLibraryResult) : Option Str :=
  match ol with
  | some v => if truthyList v.ddc then v.ddc.head? else none
  | none => none

/-- Claim-side merged classification code: first present source in the order
OCLC, then Open Library. -/
def specMergedCode (oclc : Option OCLCResult) (ol : Option OpenLibraryResult) :
    Option Str :=
  match oclcCodeCandidate oclc with
  | some d => some d
  | none => olCodeCandidate ol

/-- Claim-side merged title: first present source in the order Open Library,
Google Books, OCLC, LibraryThing, Calibre. -/
def specMergedTitle (oclc : Option OCLCResult) (ol : Option OpenLibraryResult)
    (google : Option GoogleBooksResult) (lt : Option LibraryThingResult)
    (calibre : Option CalibreBook) : Option Str :=
  firstTruthy
    [ol.bind (·.title), google.bind (·.title), oclc.bind (·.title),
     lt.bind (·.title), calibre.map (·.title)]

/-- Claim-side lexicographic order on score triples (metadata richness,
format rank, negated filename length). -/
def scoreLe (a b : ℤ × ℤ × ℤ) : Prop :=
  a.1 < b.1 ∨ (a.1 = b.1 ∧ (a.2.1 < b.2.1 ∨ (a.2.1 = b.2.1 ∧ a.2.2 ≤ b.2.2)))

/-! ## Concrete filing scenario

A small concrete environment and intake rows, used to exercise `file_item`
on both the verification-mismatch path and the migrate-then-duplicate
path. -/

/-- A concrete filer environment: every digest is `"aa"`, the naming
collaborators are constant and no cover bytes are available. -/
def envC : FilerEnv where
  md5 := fun _ => s "aa"
  author_format := s "surname"
  library_root := s "lib"
  returns_dir := s "ret"
  generate_folder_name := fun _ _ _ _ _ => s "A"
  generate_filename := fun _ _ _ _ _ _ => s "book.epub"
  generate_path := fun _ _ _ _ _ => ⟨s "lib", s "book", s ".epub"⟩
  title_from_filename := fun _ => s "T"
  get_media_type := fun _ => s "book"
  cover_data := fun _ _ _ => none

/-- A filesystem holding a single source file of content `[1]`. -/
def fsC : FS := fun q => if q = s "in/b.epub" then some [1] else none

/-- An intake row whose recorded digest matches what `envC.md5` computes. -/
def sfC1 : SourceFile where
  id := 1
  source_path := ⟨s "in", s "b", s ".epub"⟩
  filename := s "b.epub"
  format := s "epub"
  size_bytes := 1
  checksum_md5 := s "aa"
  checksum_sha256 := s "s1"
  status := s "pending"

/-- A second intake row under a different source path carrying the same
content digests as `sfC1`. -/
def sfC2 : SourceFile where
  id := 2
  source_path := ⟨s "in2", s "c", s ".epub"⟩
  filename := s "c.epub"
  format := s "epub"
  size_bytes := 1
  checksum_md5 := s "aa"
  checksum_sha256 := s "s1"
  status := s "pending"

/-- An intake row whose recorded digest does not match the content. -/
def sfC0 : SourceFile where
  id := 3
  source_path := ⟨s "in", s "b", s ".epub"⟩
  filename := s "b.epub"
  format := s "epub"
  size_bytes := 1
  checksum_md5 := s "zz"
  checksum_sha256 := s "s1"
  status := s "pending"

/-! # Theorems

All definitions above embed the source; everything below proves properties
of those definitions. -/

theorem splitChar_head_pref (sep : Char) (l : Str) :
    ∃ p ps, splitChar sep l = p :: ps ∧ p <+: l ∧ sep ∉ p := by
  induction l with
  | nil => exact ⟨[], [], rfl, List.nil_prefix, by simp⟩
  | cons c rest ih =>
    obtain ⟨p, ps, hsplit, hpref, hmem⟩ := ih
    by_cases hc : c = sep
    · exact ⟨[], p :: ps, by simp [splitChar, hsplit, hc], List.nil_prefix, by simp⟩
    · refine ⟨c :: p, ps, by simp [splitChar, hsplit, hc], ?_, ?_⟩
      · obtain ⟨t, ht⟩ := hpref
        exact ⟨t, by simp [← ht]⟩
      · intro hs
        rcases List.mem_cons.mp hs with h | h
        · exact hc h.symm
        · exact hmem h

theorem mem_splitChar (sep : Char) (l q : Str) (hq : q ∈ splitChar sep l) :
    q <:+: l ∧ sep ∉ q := by
  induction l generalizing q with
  | nil =>
    simp only [splitChar, List.mem_singleton] at hq
    subst hq
    exact ⟨List.nil_infix, by simp⟩
  | cons c rest ih =>
    obtain ⟨p, ps, hsplit, hpref, hmem⟩ := splitChar_head_pref sep rest
    simp only [splitChar, hsplit] at hq
    by_cases hc : c = sep
    · rw [if_pos hc] at hq
      rcases List.mem_cons.mp hq with h | h
      · subst h; exact ⟨List.nil_infix, by simp⟩
      · have := ih q (by rw [hsplit]; exact h)
        exact ⟨this.1.trans (List.suffix_cons c rest).isInfix, this.2⟩
    · rw [if_neg hc] at hq
      rcases List.mem_cons.mp hq with h | h
      · subst h
        constructor
        · obtain ⟨t, ht⟩ := hpref
          have hcp : c :: p <+: c :: rest := ⟨t, by simp [← ht]⟩
          exact hcp.isInfix
        · intro hs
          rcases List.mem_cons.mp hs with h | h
          · exact hc h.symm
          · exact hmem h
      · have := ih q (by rw [hsplit]; exact List.mem_cons_of_mem p h)
        exact ⟨this.1.trans (List.suffix_cons c rest).isInfix, this.2⟩

theorem map_fixed_of_avoids (f : Char → Char) (bad : Char)
    (hf : ∀ c, f c = c ∨ f c = bad) :
    ∀ (q p : Str), q.map f = p → (∀ c ∈ p, c ≠ bad) → q = p := by
  intro q
  induction q with
  | nil => intro p hp _; simpa using hp.symm
  | cons x xs ihx =>
    intro p hp havoid
    cases p with
    | nil => simp at hp
    | cons y ys =>
      simp only [List.map_cons, List.cons.injEq] at hp
      have hx : x = y := by
        rcases hf x with h | h
        · rw [← h]; exact hp.1
        · exact absurd (h.symm.trans hp.1) (havoid y (by simp)).symm.elim
      rw [hx, ihx ys hp.2 (fun c hc => havoid c (List.mem_cons_of_mem y hc))]

/-- If a map only ever rewrites characters to `bad`, any infix of the image
that avoids `bad` is an infix of the source. -/
theorem infix_of_infix_map (f : Char → Char) (bad : Char)
    (hf : ∀ c, f c = c ∨ f c = bad) (p l : Str)
    (h : p <:+: l.map f) (hp : ∀ c ∈ p, c ≠ bad) : p <:+: l := by
  obtain ⟨a, b, hab⟩ := h
  have hab' : l.map f = a ++ (p ++ b) := by rw [← hab, List.append_assoc]
  obtain ⟨a', rest, hl, _, hrest⟩ := List.map_eq_append_iff.mp hab'
  obtain ⟨p', b', hrest2, hp', _⟩ := List.map_eq_append_iff.mp hrest
  have hpp : p' = p := map_fixed_of_avoids f bad hf p' p hp' hp
  exact ⟨a', b', by rw [hl, hrest2, hpp, List.append_assoc]⟩

theorem pyStrip_infix_sub (x : Str) : pyStrip x <:+: x := by
  unfold pyStrip
  have h1 : x.dropWhile Char.isWhitespace <:+ x := List.dropWhile_suffix _
  have h2 : (x.dropWhile Char.isWhitespace).reverse.dropWhile Char.isWhitespace <:+
      (x.dropWhile Char.isWhitespace).reverse := List.dropWhile_suffix _
  have h3 : ((x.dropWhile Char.isWhitespace).reverse.dropWhile Char.isWhitespace).reverse <+:
      x.dropWhile Char.isWhitespace := by
    rw [← List.reverse_suffix, List.reverse_reverse]
    exact h2
  exact h3.isInfix.trans h1.isInfix

/-- An infix whose first character fails `p` survives `dropWhile p`. -/
theorem infix_dropWhile_of_sub (p : Char → Bool) (k x : Str)
    (hh : ∀ c, k.head? = some c → p c = false) (hk : k ≠ [])
    (h : k <:+: x) : k <:+: x.dropWhile p := by
  obtain ⟨a, b, hab⟩ := h
  subst hab
  cases k with
  | nil => exact absurd rfl hk
  | cons c k' =>
    have hc : p c = false := hh c rfl
    rw [List.append_assoc, List.dropWhile_append]
    split
    · rw [List.cons_append, List.dropWhile_cons, hc]
      simp only [Bool.false_eq_true, if_false]
      exact ⟨[], b, rfl⟩
    · exact ⟨a.dropWhile p, b, by simp⟩

/-- A nonempty infix with non-whitespace endpoints is an infix of the strip. -/
theorem infix_pyStrip_of_sub (k x : Str) (hk : k ≠ [])
    (hh : ∀ c, k.head? = some c → c.isWhitespace = false)
    (hl : ∀ c, k.getLast? = some c → c.isWhitespace = false)
    (h : k <:+: x) : k <:+: pyStrip x := by
  unfold pyStrip
  have s1 : k <:+: x.dropWhile Char.isWhitespace :=
    infix_dropWhile_of_sub Char.isWhitespace k x hh hk h
  have s2 : k.reverse <:+: (x.dropWhile Char.isWhitespace).reverse :=
    List.reverse_infix.mpr s1
  have s3 : k.reverse <:+: (x.dropWhile Char.isWhitespace).reverse.dropWhile Char.isWhitespace := by
    refine infix_dropWhile_of_sub Char.isWhitespace k.reverse _ ?_ (by simpa using hk) s2
    intro c hc
    rw [List.head?_reverse] at hc
    exact hl c hc
  have := List.reverse_infix.mpr s3
  rwa [List.reverse_reverse] at this

theorem flatten_readChunks (chunkSize : Nat) (hn : 0 < chunkSize) (l : Content) :
    (readChunks chunkSize l).flatten = l := by
  induction l using readChunks.induct chunkSize with
  | case1 l h =>
    rcases h with h | h
    · omega
    · subst h; rw [readChunks]; simp
  | case2 l h ih =>
    rw [readChunks, dif_neg h]
    simp [ih]

/-- C9: the single-pass `calculate_checksums` returns exactly the pair the
two one-digest functions return on the same content (for any positive chunk
size), and its first component also equals the independent `calculate_md5`
re-implemented in `filer/transfer.py`. -/
theorem claim_C9 (md5 sha256 : Content → Str) (content : Content)
    (chunk_size : Nat) (h : 0 < chunk_size) :
    calculate_checksums md5 sha256 content =
      (calculate_md5 md5 content chunk_size,
       calculate_sha256 sha256 content chunk_size) ∧
    (calculate_checksums md5 sha256 content).1 =
      transfer_calculate_md5 md5 content := by
  have e1 : (readChunks chunk_size content).flatten = content :=
    flatten_readChunks chunk_size h content
  have e2 : (readChunks 8192 content).flatten = content :=
    flatten_readChunks 8192 (by norm_num) content
  constructor
  · simp only [calculate_checksums, calculate_md5, calculate_sha256, e1, e2]
  · simp only [calculate_checksums, transfer_calculate_md5, e1, e2]

/-- Witness for C9 at a concrete content and chunk size. -/
theorem claim_C9_witness :
    calculate_checksums (fun c => natStr c.length) (fun c => natStr (c.length + 1))
        [1, 2, 3] =
      (calculate_md5 (fun c => natStr c.length) [1, 2, 3] 2,
       calculate_sha256 (fun c => natStr (c.length + 1)) [1, 2, 3] 2) ∧
    (calculate_checksums (fun c => natStr c.length) (fun c => natStr (c.length + 1))
        [1, 2, 3]).1 =
      transfer_calculate_md5 (fun c => natStr c.length) [1, 2, 3] :=
  claim_C9 (fun c => natStr c.length) (fun c => natStr (c.length + 1)) [1, 2, 3] 2
    (by decide)

/-- C5: the derived confidence equals the spec's weighted sum divided by the
total possible weight, and always lies between 0 and 1 (so partial coverage
never exceeds the fraction of the total weight that is actually earned). -/
theorem claim_C5 (r : EnrichedMetadata) :
    calculate_confidence r = confidenceSpecScore r / confidenceTotalWeight ∧
    0 ≤ calculate_confidence r ∧ calculate_confidence r ≤ 1 := by
  have hshift : ∀ (c : Prop) [Decidable c] (x w : ℚ),
      (if c then x + w else x) = x + (if c then w else 0) := by
    intro c _ x w; split <;> ring
  have hshift3 : ∀ (c d : Prop) [Decidable c] [Decidable d] (x w v : ℚ),
      (if c then x + w else if d then x + v else x) =
        x + (if c then w else if d then v else 0) := by
    intro c d _ _ x w v
    by_cases hc : c
    · simp [hc]
    · by_cases hd : d <;> simp [hc, hd]
  have heq : calculate_confidence r = confidenceSpecScore r := by
    simp only [calculate_confidence, confidenceSpecScore, hshift, hshift3]
    norm_num
    split_ifs <;> ring
  have hb1 : (0:ℚ) ≤ (if truthyOpt r.title then (0.2:ℚ) else 0) ∧
      (if truthyOpt r.title then (0.2:ℚ) else 0) ≤ 0.2 := by
    constructor <;> split <;> norm_num
  have hb2 : (0:ℚ) ≤ (if truthyList r.authors then (0.15:ℚ) else 0) ∧
      (if truthyList r.authors then (0.15:ℚ) else 0) ≤ 0.15 := by
    constructor <;> split <;> norm_num
  have hb3 : (0:ℚ) ≤ (if truthyOpt r.ddc then (0.25:ℚ) else 0) ∧
      (if truthyOpt r.ddc then (0.25:ℚ) else 0) ≤ 0.25 := by
    constructor <;> split <;> norm_num
  have hb4 : (0:ℚ) ≤ (if truthyOpt r.description then (0.1:ℚ) else 0) ∧
      (if truthyOpt r.description then (0.1:ℚ) else 0) ≤ 0.1 := by
    constructor <;> split <;> norm_num
  have hb5 : (0:ℚ) ≤ (if r.sources.length ≥ 2 then (0.15:ℚ)
        else if r.sources.length = 1 then 0.07 else 0) ∧
      (if r.sources.length ≥ 2 then (0.15:ℚ)
        else if r.sources.length = 1 then 0.07 else 0) ≤ 0.15 := by
    constructor <;> (split_ifs <;> norm_num)
  have hb6 : (0:ℚ) ≤ (if truthyOpt r.isbn ∨ truthyOpt r.isbn13 then (0.1:ℚ) else 0) ∧
      (if truthyOpt r.isbn ∨ truthyOpt r.isbn13 then (0.1:ℚ) else 0) ≤ 0.1 := by
    constructor <;> split <;> norm_num
  have hb7 : (0:ℚ) ≤ (if truthyOpt r.cover_url then (0.05:ℚ) else 0) ∧
      (if truthyOpt r.cover_url then (0.05:ℚ) else 0) ≤ 0.05 := by
    constructor <;> split <;> norm_num
  have hbounds : 0 ≤ confidenceSpecScore r ∧ confidenceSpecScore r ≤ 1 := by
    unfold confidenceSpecScore
    constructor
    · linarith [hb1.1, hb2.1, hb3.1, hb4.1, hb5.1, hb6.1, hb7.1]
    · linarith [hb1.2, hb2.2, hb3.2, hb4.2, hb5.2, hb6.2, hb7.2]
  refine ⟨?_, ?_, ?_⟩
  · rw [heq]
    unfold confidenceTotalWeight
    norm_num
  · rw [heq]; exact hbounds.1
  · rw [heq]; exact hbounds.2

theorem uniqueLoop_finds (fs : FS) (path : PathT) :
    ∀ fuel counter n, counter ≤ n → n ≤ counter + fuel →
    (∀ m, counter ≤ m → m < n → fsExists fs (uniqueVariant path m).render = true) →
    fsExists fs (uniqueVariant path n).render = false →
    uniqueLoop fs path counter fuel = .ok (uniqueVariant path n) := by
  intro fuel
  induction fuel with
  | zero =>
    intro counter n h1 h2 _ hfree
    have hn : n = counter := by omega
    subst hn
    simp only [uniqueLoop, hfree, if_pos]
  | succ f ih =>
    intro counter n h1 h2 hall hfree
    by_cases hc : n = counter
    · subst hc
      simp only [uniqueLoop, hfree, if_pos]
    · have hcn : counter < n := by omega
      have hex : fsExists fs (uniqueVariant path counter).render = true :=
        hall counter le_rfl hcn
      simp only [uniqueLoop, hex]
      exact ih (counter + 1) n (by omega) (by omega)
        (fun m hm1 hm2 => hall m (by omega) hm2) hfree

theorem uniqueLoop_exhausts (fs : FS) (path : PathT) :
    ∀ fuel counter,
    (∀ m, counter ≤ m → m ≤ counter + fuel →
      fsExists fs (uniqueVariant path m).render = true) →
    uniqueLoop fs path counter fuel = .error (s "ValueError") := by
  intro fuel
  induction fuel with
  | zero =>
    intro counter hall
    have hex := hall counter le_rfl (by omega)
    simp [uniqueLoop, hex]
  | succ f ih =>
    intro counter hall
    have hex := hall counter le_rfl (by omega)
    simp only [uniqueLoop, hex]
    simp only [Bool.true_eq_false, if_false]
    exact ih (counter + 1) (fun m hm1 hm2 => hall m (by omega) (by omega))

/-- C10: `ensure_unique_path` returns a non-existing path unchanged; when the
path is taken it returns the first variant `stem (n)suffix`, `n` counting up
from 2, that does not exist; and when the path and every variant for `n` from
2 through 100 all exist it raises `ValueError` instead of returning. -/
theorem claim_C10 (fs : FS) (path : PathT) :
    (fsExists fs path.render = false → ensure_unique_path fs path = .ok path) ∧
    (∀ n, 2 ≤ n → n ≤ 100 →
      fsExists fs path.render = true →
      (∀ m, 2 ≤ m → m < n → fsExists fs (uniqueVariant path m).render = true) →
      fsExists fs (uniqueVariant path n).render = false →
      ensure_unique_path fs path = .ok (uniqueVariant path n)) ∧
    (fsExists fs path.render = true →
      (∀ m, 2 ≤ m → m ≤ 100 → fsExists fs (uniqueVariant path m).render = true) →
      ensure_unique_path fs path = .error (s "ValueError")) := by
  refine ⟨?_, ?_, ?_⟩
  · intro hfree
    simp only [ensure_unique_path, hfree, if_pos]
  · intro n h2 h100 htaken hall hfree
    have : ¬ fsExists fs path.render = false := by simp [htaken]
    simp only [ensure_unique_path, if_neg this]
    exact uniqueLoop_finds fs path 98 2 n h2 (by omega) hall hfree
  · intro htaken hall
    have : ¬ fsExists fs path.render = false := by simp [htaken]
    simp only [ensure_unique_path, if_neg this]
    exact uniqueLoop_exhausts fs path 98 2 (fun m hm1 hm2 => hall m hm1 (by omega))

/-- Witness for C10: the base path and the `" (2)"` variant exist, so the
`" (3)"` variant is returned. -/
theorem claim_C10_witness :
    ensure_unique_path
      (fun q =>
        if q = (PathT.mk (s "lib") (s "b") (s ".epub")).render ∨
           q = (uniqueVariant (PathT.mk (s "lib") (s "b") (s ".epub")) 2).render
        then some [] else none)
      (PathT.mk (s "lib") (s "b") (s ".epub")) =
      .ok (uniqueVariant (PathT.mk (s "lib") (s "b") (s ".epub")) 3) := by
  refine (claim_C10 _ _).2.1 3 (by decide) (by decide) (by decide) ?_ (by decide)
  intro m hm1 hm2
  have hm : m = 2 := by omega
  subst hm
  decide

theorem append_cons_eq (acc : List Str) (v : Str) (ys : List Str) :
    acc ++ v :: ys = (acc ++ [v]) ++ ys := by simp

theorem fold13_spec (m13 : List Str) : ∀ acc : List Str,
    ∃ ys, List.foldl isbn13Step acc m13 = acc ++ ys ∧
      (∀ y ∈ ys, y.length = 13) ∧
      (acc.Nodup → (acc ++ ys).Nodup) ∧
      (∀ x ∈ m13, (normIsbn x).length = 13 → normIsbn x ∈ acc ++ ys) := by
  induction m13 with
  | nil => intro acc; exact ⟨[], by simp, by simp, fun h => by simpa using h, by simp⟩
  | cons m rest ih =>
    intro acc
    simp only [List.foldl_cons]
    by_cases hstep : (normIsbn m).length = 13 ∧ acc.contains (normIsbn m) = false
    · have hs : isbn13Step acc m = acc ++ [normIsbn m] := by
        simp only [isbn13Step, if_pos hstep]
      obtain ⟨ys, h1, h2, h3, h4⟩ := ih (acc ++ [normIsbn m])
      refine ⟨normIsbn m :: ys, ?_, ?_, ?_, ?_⟩
      · rw [hs, h1]; simp
      · intro y hy
        rcases List.mem_cons.mp hy with h | h
        · subst h; exact hstep.1
        · exact h2 y h
      · intro hnd
        have hnd2 : (acc ++ [normIsbn m]).Nodup := by
          rw [List.nodup_append]
          refine ⟨hnd, by simp, ?_⟩
          intro a ha hb
          simp only [List.mem_singleton] at hb
          subst hb
          exact (by simpa using hstep.2 : normIsbn m ∉ acc) ha
        rw [append_cons_eq]
        exact h1 ▸ h3 hnd2
      · intro x hx hlen
        rw [append_cons_eq]
        rcases List.mem_cons.mp hx with h | h
        · subst h
          exact List.mem_append.mpr (Or.inl (by simp))
        · exact h1 ▸ h4 x h hlen
    · have hs : isbn13Step acc m = acc := by
        simp only [isbn13Step, if_neg hstep]
      obtain ⟨ys, h1, h2, h3, h4⟩ := ih acc
      refine ⟨ys, by rw [hs, h1], h2, h3, ?_⟩
      intro x hx hlen
      rcases List.mem_cons.mp hx with h | h
      · subst h
        -- the guard failed, so the normalised ISBN is already in acc
        have hmem : normIsbn x ∈ acc := by
          by_contra hmem
          exact hstep ⟨hlen, by simpa using hmem⟩
        exact List.mem_append.mpr (Or.inl hmem)
      · exact h4 x h hlen

theorem fold10_spec (m10 : List Str) : ∀ acc : List Str,
    ∃ ys, List.foldl isbn10Step acc m10 = acc ++ ys ∧
      (∀ y ∈ ys, y.length = 10 ∧
        ∀ x ∈ acc, x.length = 13 → ¬ (y <:+: x)) ∧
      (acc.Nodup → (acc ++ ys).Nodup) := by
  induction m10 with
  | nil => intro acc; exact ⟨[], by simp, by simp, fun h => by simpa using h⟩
  | cons m rest ih =>
    intro acc
    simp only [List.foldl_cons]
    by_cases hg : (normIsbn m).length = 10 ∧ acc.contains (normIsbn m) = false
    · by_cases hsub : acc.any (fun isbn13 =>
        if isbn13.length = 13 then pyIn (normIsbn m) isbn13 else false) = false
      · have hs : isbn10Step acc m = acc ++ [normIsbn m] := by
          simp only [isbn10Step, if_pos hg, hsub, if_pos]
        obtain ⟨ys, h1, h2, h3⟩ := ih (acc ++ [normIsbn m])
        refine ⟨normIsbn m :: ys, ?_, ?_, ?_⟩
        · rw [hs, h1]; simp
        · intro y hy
          rcases List.mem_cons.mp hy with h | h
          · subst h
            refine ⟨hg.1, ?_⟩
            intro x hx hlen hinf
            have := List.any_eq_false.mp hsub x hx
            rw [if_pos hlen] at this
            simp only [pyIn, decide_eq_true_eq] at this
            exact this hinf
          · have := h2 y h
            exact ⟨this.1, fun x hx hlen => this.2 x (by simp [hx]) hlen⟩
        · intro hnd
          have hnd2 : (acc ++ [normIsbn m]).Nodup := by
            rw [List.nodup_append]
            refine ⟨hnd, by simp, ?_⟩
            intro a ha hb
            simp only [List.mem_singleton] at hb
            subst hb
            exact (by simpa using hg.2 : normIsbn m ∉ acc) ha
          rw [append_cons_eq]
          exact h1 ▸ h3 hnd2
      · have hsub' : acc.any (fun isbn13 =>
            if isbn13.length = 13 then pyIn (normIsbn m) isbn13 else false) = true := by
          simpa using hsub
        have hs : isbn10Step acc m = acc := by
          simp only [isbn10Step, if_pos hg, hsub']
          simp
        obtain ⟨ys, h1, h2, h3⟩ := ih acc
        exact ⟨ys, by rw [hs, h1], h2, h3⟩
    · have hs : isbn10Step acc m = acc := by
        simp only [isbn10Step, if_neg hg]
      obtain ⟨ys, h1, h2, h3⟩ := ih acc
      exact ⟨ys, by rw [hs, h1], h2, h3⟩

/-- C7: for any capture lists of the two regex passes, the result of
`extract_isbns_from_text` contains every matched ISBN-13 (normalised), all
ISBN-13s before any ISBN-10, no duplicates, and no ISBN-10 that is a
contiguous substring of an ISBN-13 in the list. -/
theorem claim_C7 (m13 m10 : List Str) :
    (∀ x ∈ m13, (normIsbn x).length = 13 →
      normIsbn x ∈ extract_isbns_from_text m13 m10) ∧
    (∃ xs ys, extract_isbns_from_text m13 m10 = xs ++ ys ∧
      (∀ x ∈ xs, x.length = 13) ∧ (∀ y ∈ ys, y.length = 10)) ∧
    (extract_isbns_from_text m13 m10).Nodup ∧
    (∀ y ∈ extract_isbns_from_text m13 m10, y.length = 10 →
      ∀ x ∈ extract_isbns_from_text m13 m10, x.length = 13 → ¬ (y <:+: x)) := by
  obtain ⟨xs, h131, h132, h133, h134⟩ := fold13_spec m13 []
  obtain ⟨ys, h101, h102, h103⟩ := fold10_spec m10 ([] ++ xs)
  have hout : extract_isbns_from_text m13 m10 = xs ++ ys := by
    simp only [extract_isbns_from_text]
    rw [h131, h101]
    simp
  refine ⟨?_, ⟨xs, ys, hout, h132, fun y hy => (h102 y hy).1⟩, ?_, ?_⟩
  · intro x hx hlen
    rw [hout]
    have := h134 x hx hlen
    exact List.mem_append.mpr (Or.inl (by simpa using this))
  · rw [hout]
    have := h103 (by simpa using h133 List.nodup_nil)
    simpa using this
  · intro y hy hylen x hx hxlen
    rw [hout] at hy hx
    have hyys : y ∈ ys := by
      rcases List.mem_append.mp hy with h | h
      · have := h132 y h; omega
      · exact h
    have hxxs : x ∈ xs := by
      rcases List.mem_append.mp hx with h | h
      · exact h
      · have := (h102 x h).1; omega
    exact (h102 y hyys).2 x (by simpa using hxxs) hxlen

/-- Witness for C7: a matched ISBN-13 ends up in the list. -/
theorem claim_C7_witness :
    normIsbn (s "978-0-13-468599-1") ∈
      extract_isbns_from_text [s "978-0-13-468599-1"] [s "0-13-468599-2"] :=
  (claim_C7 [s "978-0-13-468599-1"] [s "0-13-468599-2"]).1
    (s "978-0-13-468599-1") (by decide) (by decide)

/-- C2: a first `copy_verify_remove` moves the file and returns `True`; a
second run with the very same arguments (destination now holds the expected
content, source gone) changes nothing on the filesystem and still returns
`True`. -/
theorem claim_C2 (md5 : Content → Str) (fs : FS) (source destination : PathT)
    (e : Str) (c : Content) (cleanup : Option Str)
    (hsrc : fs source.render = some c)
    (hdst : fs destination.render = none)
    (he : md5 c = e) :
    ∃ fs1, copy_verify_remove md5 fs source destination (some e) cleanup =
        .ok (fs1, true) ∧
      fs1 source.render = none ∧
      fs1 destination.render = some c ∧
      (∀ q, q ≠ source.render → q ≠ destination.render → fs1 q = fs q) ∧
      copy_verify_remove md5 fs1 source destination (some e) cleanup =
        .ok (fs1, true) := by
  have hne : source.render ≠ destination.render := by
    intro h
    rw [h, hdst] at hsrc
    exact Option.noConfusion hsrc
  refine ⟨remove_and_cleanup (fsSet fs destination.render c) source cleanup, ?_, ?_, ?_, ?_, ?_⟩
  · simp only [copy_verify_remove, hdst, hsrc, he, if_pos, pure, Except.pure, bind,
      Except.bind]
  · simp [remove_and_cleanup, fsDel]
  · simp [remove_and_cleanup, fsDel, fsSet, hne.symm]
  · intro q hq1 hq2
    simp [remove_and_cleanup, fsDel, fsSet, hq1, hq2]
  · have h1 : remove_and_cleanup (fsSet fs destination.render c) source cleanup
        destination.render = some c := by
      simp [remove_and_cleanup, fsDel, fsSet, hne.symm]
    have h2 : remove_and_cleanup
        (remove_and_cleanup (fsSet fs destination.render c) source cleanup)
        source cleanup =
        remove_and_cleanup (fsSet fs destination.render c) source cleanup := by
      funext q
      by_cases hq : q = source.render
      · subst hq
        simp [remove_and_cleanup, fsDel]
      · simp [remove_and_cleanup, fsDel, hq]
    simp only [copy_verify_remove, h1, he, if_pos, pure, Except.pure, bind, Except.bind, h2]

/-- Witness for C2 on a one-file filesystem. -/
theorem claim_C2_witness :
    ∃ fs1,
      copy_verify_remove (fun c => natStr c.length)
          (fun q => if q = (PathT.mk (s "in") (s "a") (s ".epub")).render
                    then some [7] else none)
          (PathT.mk (s "in") (s "a") (s ".epub"))
          (PathT.mk (s "out") (s "a") (s ".epub"))
          (some (natStr 1)) none =
        .ok (fs1, true) ∧
      fs1 (PathT.mk (s "in") (s "a") (s ".epub")).render = none ∧
      fs1 (PathT.mk (s "out") (s "a") (s ".epub")).render = some [7] ∧
      (∀ q, q ≠ (PathT.mk (s "in") (s "a") (s ".epub")).render →
        q ≠ (PathT.mk (s "out") (s "a") (s ".epub")).render →
        fs1 q = (fun q => if q = (PathT.mk (s "in") (s "a") (s ".epub")).render
                          then some [7] else none) q) ∧
      copy_verify_remove (fun c => natStr c.length) fs1
          (PathT.mk (s "in") (s "a") (s ".epub"))
          (PathT.mk (s "out") (s "a") (s ".epub"))
          (some (natStr 1)) none =
        .ok (fs1, true) :=
  claim_C2 (fun c => natStr c.length) _ _ _ (natStr 1) [7] none
    (by decide) (by decide) (by decide)

theorem mergeTitle_ddc (r : EnrichedMetadata) (oclc : Option OCLCResult)
    (ol : Option OpenLibraryResult) (google : Option GoogleBooksResult)
    (lt : Option LibraryThingResult) (calibre : Option CalibreBook) :
    (mergeTitle r oclc ol google lt calibre).ddc = r.ddc := by
  simp only [mergeTitle]; split_ifs <;> rfl

theorem mergeAuthors_ddc (r : EnrichedMetadata) (oclc : Option OCLCResult)
    (ol : Option OpenLibraryResult) (google : Option GoogleBooksResult)
    (lt : Option LibraryThingResult) (calibre : Option CalibreBook) :
    (mergeAuthors r oclc ol google lt calibre).ddc = r.ddc := by
  simp only [mergeAuthors]; split_ifs <;> rfl

theorem mergeAuthors_title (r : EnrichedMetadata) (oclc : Option OCLCResult)
    (ol : Option OpenLibraryResult) (google : Option GoogleBooksResult)
    (lt : Option LibraryThingResult) (calibre : Option CalibreBook) :
    (mergeAuthors r oclc ol google lt calibre).title = r.title := by
  simp only [mergeAuthors]; split_ifs <;> rfl

theorem mergeDescription_ddc (r : EnrichedMetadata) (ol : Option OpenLibraryResult)
    (google : Option GoogleBooksResult) (calibre : Option CalibreBook) :
    (mergeDescription r ol google calibre).ddc = r.ddc := by
  simp only [mergeDescription]; split_ifs <;> rfl

theorem mergeDescription_title (r : EnrichedMetadata) (ol : Option OpenLibraryResult)
    (google : Option GoogleBooksResult) (calibre : Option CalibreBook) :
    (mergeDescription r ol google calibre).title = r.title := by
  simp only [mergeDescription]; split_ifs <;> rfl

theorem mergePublisher_ddc (r : EnrichedMetadata) (ol : Option OpenLibraryResult)
    (google : Option GoogleBooksResult) (calibre : Option CalibreBook) :
    (mergePublisher r ol google calibre).ddc = r.ddc := by
  simp only [mergePublisher]; split_ifs <;> rfl

theorem mergePublisher_title (r : EnrichedMetadata) (ol : Option OpenLibraryResult)
    (google : Option GoogleBooksResult) (calibre : Option CalibreBook) :
    (mergePublisher r ol google calibre).title = r.title := by
  simp only [mergePublisher]; split_ifs <;> rfl

theorem mergeSubjects_ddc (r : EnrichedMetadata) (ol : Option OpenLibraryResult)
    (google : Option GoogleBooksResult) (calibre : Option CalibreBook) :
    (mergeSubjects r ol google calibre).ddc = r.ddc := by
  simp only [mergeSubjects]; split_ifs <;> rfl

theorem mergeSubjects_title (r : EnrichedMetadata) (ol : Option OpenLibraryResult)
    (google : Option GoogleBooksResult) (calibre : Option CalibreBook) :
    (mergeSubjects r ol google calibre).title = r.title := by
  simp only [mergeSubjects]; split_ifs <;> rfl

theorem mergePageLanguage_ddc (r : EnrichedMetadata)
    (google : Option GoogleBooksResult) (calibre : Option CalibreBook) :
    (mergePageLanguage r google calibre).ddc = r.ddc := by
  simp only [mergePageLanguage]; split_ifs <;> rfl

theorem mergePageLanguage_title (r : EnrichedMetadata)
    (google : Option GoogleBooksResult) (calibre : Option CalibreBook) :
    (mergePageLanguage r google calibre).title = r.title := by
  simp only [mergePageLanguage]; split_ifs <;> rfl

theorem mergeIsbnsCalibre_ddc (r : EnrichedMetadata) (calibre : Option CalibreBook) :
    (mergeIsbnsCalibre r calibre).ddc = r.ddc := by
  rcases calibre with _ | cb
  · rfl
  · cases hcb : cb.isbn <;>
      simp [mergeIsbnsCalibre, hcb, apply_ite (EnrichedMetadata.ddc)]

theorem mergeIsbnsCalibre_title (r : EnrichedMetadata) (calibre : Option CalibreBook) :
    (mergeIsbnsCalibre r calibre).title = r.title := by
  rcases calibre with _ | cb
  · rfl
  · cases hcb : cb.isbn <;>
      simp [mergeIsbnsCalibre, hcb, apply_ite (EnrichedMetadata.title)]

theorem mergeIsbnsOl_ddc (r : EnrichedMetadata) (ol : Option OpenLibraryResult) :
    (mergeIsbnsOl r ol).ddc = r.ddc := by
  rcases ol with _ | v
  · rfl
  · simp [mergeIsbnsOl, apply_ite (EnrichedMetadata.ddc)]

theorem mergeIsbnsOl_title (r : EnrichedMetadata) (ol : Option OpenLibraryResult) :
    (mergeIsbnsOl r ol).title = r.title := by
  rcases ol with _ | v
  · rfl
  · simp [mergeIsbnsOl, apply_ite (EnrichedMetadata.title)]

theorem mergeIsbnsGoogle_ddc (r : EnrichedMetadata) (google : Option GoogleBooksResult) :
    (mergeIsbnsGoogle r google).ddc = r.ddc := by
  rcases google with _ | g
  · rfl
  · simp [mergeIsbnsGoogle, apply_ite (EnrichedMetadata.ddc)]

theorem mergeIsbnsGoogle_title (r : EnrichedMetadata) (google : Option GoogleBooksResult) :
    (mergeIsbnsGoogle r google).title = r.title := by
  rcases google with _ | g
  · rfl
  · simp [mergeIsbnsGoogle, apply_ite (EnrichedMetadata.title)]

theorem mergeIsbns_ddc (r : EnrichedMetadata) (ol : Option OpenLibraryResult)
    (google : Option GoogleBooksResult) (calibre : Option CalibreBook) :
    (mergeIsbns r ol google calibre).ddc = r.ddc := by
  rw [mergeIsbns, mergeIsbnsGoogle_ddc, mergeIsbnsOl_ddc, mergeIsbnsCalibre_ddc]

theorem mergeIsbns_title (r : EnrichedMetadata) (ol : Option OpenLibraryResult)
    (google : Option GoogleBooksResult) (calibre : Option CalibreBook) :
    (mergeIsbns r ol google calibre).title = r.title := by
  rw [mergeIsbns, mergeIsbnsGoogle_title, mergeIsbnsOl_title, mergeIsbnsCalibre_title]

theorem mergeCoverIds_ddc (r : EnrichedMetadata) (ol : Option OpenLibraryResult)
    (google : Option GoogleBooksResult) :
    (mergeCoverIds r ol google).ddc = r.ddc := by
  simp only [mergeCoverIds]; split_ifs <;> rfl

theorem mergeCoverIds_title (r : EnrichedMetadata) (ol : Option OpenLibraryResult)
    (google : Option GoogleBooksResult) :
    (mergeCoverIds r ol google).title = r.title := by
  simp only [mergeCoverIds]; split_ifs <;> rfl

theorem mergeLtCalibre_ddc (r : EnrichedMetadata) (lt : Option LibraryThingResult)
    (calibre : Option CalibreBook) :
    (mergeLtCalibre r lt calibre).ddc = r.ddc := by
  simp only [mergeLtCalibre]
  repeat' split
  all_goals rfl

theorem mergeLtCalibre_title (r : EnrichedMetadata) (lt : Option LibraryThingResult)
    (calibre : Option CalibreBook) :
    (mergeLtCalibre r lt calibre).title = r.title := by
  simp only [mergeLtCalibre]
  repeat' split
  all_goals rfl

theorem truthyOpt_eq_some (a : Option Str) (h : truthyOpt a = true) :
    ∃ x, a = some x := by
  cases a with
  | none => simp [truthyOpt] at h
  | some x => exact ⟨x, rfl⟩

theorem firstTruthy_cons_pos (a : Option Str) (l : List (Option Str))
    (h : truthyOpt a = true) : firstTruthy (a :: l) = a := by
  obtain ⟨x, hx⟩ := truthyOpt_eq_some a h
  subst hx
  simp [firstTruthy, List.findSome?_cons, h]

theorem firstTruthy_cons_neg (a : Option Str) (l : List (Option Str))
    (h : truthyOpt a = false) : firstTruthy (a :: l) = firstTruthy l := by
  simp [firstTruthy, List.findSome?_cons, h]

theorem mergeClassification_title (r : EnrichedMetadata) (oclc : Option OCLCResult)
    (ol : Option OpenLibraryResult) :
    (mergeClassification r oclc ol).title = r.title := by
  simp only [mergeClassification]
  repeat' split
  all_goals rfl

theorem mergeClassification_ddc_spec (r : EnrichedMetadata)
    (oclc : Option OCLCResult) (ol : Option OpenLibraryResult)
    (hddc : r.ddc = none) :
    (mergeClassification r oclc ol).ddc = specMergedCode oclc ol := by
  simp only [mergeClassification, specMergedCode, oclcCodeCandidate, olCodeCandidate]
  rcases oclc with _ | o <;> rcases ol with _ | v <;>
    simp only [] <;> (repeat' split) <;> simp_all [truthyOpt]

/-- C4: in the merged record the classification code comes from the first
present source in the order OCLC then Open Library, and the title from the
first present source in the order Open Library, Google Books, OCLC,
LibraryThing, Calibre — per-field precedence, not a global winner. -/
theorem claim_C4 (r : EnrichedMetadata) (oclc : Option OCLCResult)
    (ol : Option OpenLibraryResult) (google : Option GoogleBooksResult)
    (lt : Option LibraryThingResult) (calibre : Option CalibreBook)
    (hddc : r.ddc = none) (htitle : r.title = none) :
    (merge_results r oclc ol google lt calibre).ddc = specMergedCode oclc ol ∧
    (merge_results r oclc ol google lt calibre).title =
      specMergedTitle oclc ol google lt calibre := by
  unfold merge_results
  constructor
  · rw [mergeLtCalibre_ddc, mergeCoverIds_ddc, mergeIsbns_ddc, mergePageLanguage_ddc,
      mergeSubjects_ddc, mergePublisher_ddc, mergeDescription_ddc, mergeAuthors_ddc,
      mergeTitle_ddc]
    exact mergeClassification_ddc_spec r oclc ol hddc
  · rw [mergeLtCalibre_title, mergeCoverIds_title, mergeIsbns_title,
      mergePageLanguage_title, mergeSubjects_title, mergePublisher_title,
      mergeDescription_title, mergeAuthors_title]
    have hbase : (mergeClassification r oclc ol).title = none := by
      rw [mergeClassification_title]; exact htitle
    simp only [mergeTitle]
    split_ifs with h1 h2 h3 h4 h5
    · rw [specMergedTitle, firstTruthy_cons_pos _ _ h1]
    · rw [specMergedTitle, firstTruthy_cons_neg _ _ (by simpa using h1), firstTruthy_cons_pos _ _ h2]
    · rw [specMergedTitle, firstTruthy_cons_neg _ _ (by simpa using h1), firstTruthy_cons_neg _ _ (by simpa using h2),
        firstTruthy_cons_pos _ _ h3]
    · rw [specMergedTitle, firstTruthy_cons_neg _ _ (by simpa using h1), firstTruthy_cons_neg _ _ (by simpa using h2),
        firstTruthy_cons_neg _ _ (by simpa using h3), firstTruthy_cons_pos _ _ h4]
    · rw [specMergedTitle, firstTruthy_cons_neg _ _ (by simpa using h1), firstTruthy_cons_neg _ _ (by simpa using h2),
        firstTruthy_cons_neg _ _ (by simpa using h3), firstTruthy_cons_neg _ _ (by simpa using h4),
        firstTruthy_cons_pos _ _ h5]
    · rw [specMergedTitle, firstTruthy_cons_neg _ _ (by simpa using h1), firstTruthy_cons_neg _ _ (by simpa using h2),
        firstTruthy_cons_neg _ _ (by simpa using h3), firstTruthy_cons_neg _ _ (by simpa using h4),
        firstTruthy_cons_neg _ _ (by simpa using h5)]
      exact hbase

/-- Witness for C4: only OCLC provides code `"004"` and only Google Books a
title `"X"`; the merged record takes OCLC's code and Google's title. -/
theorem claim_C4_witness :
    (merge_results {} (some { ddc := some (s "004") }) none
        (some { title := some (s "X") }) none none).ddc = some (s "004") ∧
    (merge_results {} (some { ddc := some (s "004") }) none
        (some { title := some (s "X") }) none none).title = some (s "X") := by
  have h := claim_C4 {} (some { ddc := some (s "004") }) none
    (some { title := some (s "X") }) none none rfl rfl
  exact ⟨h.1.trans (by decide), h.2.trans (by decide)⟩

theorem scoreLe_refl (a : ℤ × ℤ × ℤ) : scoreLe a a := by
  unfold scoreLe; omega

theorem scoreLe_trans (a b c : ℤ × ℤ × ℤ) (h1 : scoreLe a b) (h2 : scoreLe b c) :
    scoreLe a c := by
  unfold scoreLe at *; omega

theorem scoreLtB_false_le (a b : ℤ × ℤ × ℤ) (h : scoreLtB a b = false) :
    scoreLe b a := by
  unfold scoreLtB at h
  unfold scoreLe
  split_ifs at h <;> (try simp at h) <;> omega

theorem scoreLtB_true_le (a b : ℤ × ℤ × ℤ) (h : scoreLtB a b = true) :
    scoreLe a b := by
  unfold scoreLtB at h
  unfold scoreLe
  split_ifs at h <;> (try simp at h) <;> omega

theorem select_best_copy_mem (f : SourceFile) (rest : List SourceFile) :
    select_best_copy f rest ∈ f :: rest := by
  induction rest generalizing f with
  | nil => simp [select_best_copy]
  | cons x rest ih =>
    simp only [select_best_copy, List.foldl_cons]
    have := ih (if scoreLtB (best_copy_score f) (best_copy_score x) then x else f)
    simp only [select_best_copy] at this
    rcases List.mem_cons.mp this with h | h
    · rw [h]
      split <;> simp
    · simp [h]

theorem select_best_copy_max (f : SourceFile) (rest : List SourceFile) :
    ∀ x ∈ f :: rest,
      scoreLe (best_copy_score x) (best_copy_score (select_best_copy f rest)) := by
  induction rest generalizing f with
  | nil =>
    intro x hx
    simp only [List.mem_singleton] at hx
    subst hx
    exact scoreLe_refl _
  | cons y rest ih =>
    intro x hx
    simp only [select_best_copy, List.foldl_cons]
    set f' := if scoreLtB (best_copy_score f) (best_copy_score y) then y else f with hf'
    have hbest := ih f'
    simp only [select_best_copy] at hbest
    have hff' : scoreLe (best_copy_score f) (best_copy_score f') := by
      rw [hf']
      cases hlt : scoreLtB (best_copy_score f) (best_copy_score y)
      · simp [scoreLe_refl]
      · simp [scoreLtB_true_le _ _ hlt]
    have hyf' : scoreLe (best_copy_score y) (best_copy_score f') := by
      rw [hf']
      cases hlt : scoreLtB (best_copy_score f) (best_copy_score y)
      · simp [scoreLtB_false_le _ _ hlt]
      · simp [scoreLe_refl]
    have hf'best : scoreLe (best_copy_score f')
        (best_copy_score (List.foldl
          (fun best x =>
            if scoreLtB (best_copy_score best) (best_copy_score x) then x else best)
          f' rest)) :=
      hbest f' (by simp)
    rcases List.mem_cons.mp hx with h | h
    · subst h
      exact scoreLe_trans _ _ _ hff' hf'best
    · rcases List.mem_cons.mp h with h | h
      · subst h
        exact scoreLe_trans _ _ _ hyf' hf'best
      · exact hbest x (List.mem_cons_of_mem f' h)

/-- C8: within a non-empty group of pending records sharing a digest, the
survivor chosen by the dedup pass is maximal in the lexicographic order
(metadata richness, format rank with epub > pdf > mobi > other, shorter
filename), stays unchanged, and every other member is set to `duplicate`
pointing at the survivor. -/
theorem claim_C8 (f : SourceFile) (rest : List SourceFile) (c : Str)
    (hpend : ∀ x ∈ f :: rest, x.status = s "pending" ∧ x.checksum_md5 = c)
    (hids : (f :: rest).Pairwise (fun a b => a.id ≠ b.id)) :
    select_best_copy f rest ∈ f :: rest ∧
    (∀ x ∈ f :: rest,
      scoreLe (best_copy_score x) (best_copy_score (select_best_copy f rest))) ∧
    select_best_copy f rest ∈ process_duplicate_group (f :: rest) ∧
    (∀ x ∈ f :: rest, x.id ≠ (select_best_copy f rest).id →
      { x with status := s "duplicate",
               duplicate_of_id := some (select_best_copy f rest).id } ∈
        process_duplicate_group (f :: rest)) ∧
    (∀ y ∈ process_duplicate_group (f :: rest),
      y = select_best_copy f rest ∨
      (y.status = s "duplicate" ∧
       y.duplicate_of_id = some (select_best_copy f rest).id)) := by
  have hmem := select_best_copy_mem f rest
  have hmax := select_best_copy_max f rest
  have hdistinct : ∀ x ∈ f :: rest, x.id = (select_best_copy f rest).id →
      x = select_best_copy f rest := by
    intro x hx hid
    by_contra hne
    have hpf := List.Pairwise.forall
      (R := fun (a b : SourceFile) => a.id ≠ b.id) (fun _ _ h => h.symm) hids
    exact (hpf hx hmem hne) hid
  have hout : ∀ g : List SourceFile, g = f :: rest →
      process_duplicate_group g = g.map (fun x =>
        if x.id ≠ (select_best_copy f rest).id then
          { x with status := s "duplicate",
                   duplicate_of_id := some (select_best_copy f rest).id }
        else x) := by
    intro g hg
    subst hg
    cases rest with
    | nil =>
      -- a singleton group is skipped; the survivor is `f` itself
      simp only [process_duplicate_group, List.isEmpty_nil, if_pos]
      simp [select_best_copy]
    | cons y rest' =>
      simp only [process_duplicate_group, List.isEmpty_cons, if_neg]
      simp
  have houtl := hout (f :: rest) rfl
  refine ⟨hmem, hmax, ?_, ?_, ?_⟩
  · rw [houtl]
    refine List.mem_map.mpr ⟨select_best_copy f rest, hmem, ?_⟩
    simp
  · intro x hx hne
    rw [houtl]
    exact List.mem_map.mpr ⟨x, hx, by simp [hne]⟩
  · intro y hy
    rw [houtl] at hy
    obtain ⟨x, hx, hxy⟩ := List.mem_map.mp hy
    by_cases hid : x.id = (select_best_copy f rest).id
    · left
      rw [← hxy]
      simp only [hid, ne_eq, not_true_eq_false, if_neg, not_false_eq_true]
      · exact hdistinct x hx hid
    · right
      rw [← hxy]
      simp [hid]

/-- Witness for C8 on a two-element group: the second record (an epub with a
title) wins, the first becomes `duplicate`. -/
theorem claim_C8_witness :
    ({ (({ id := 1, source_path := ⟨ s "r", s "a", s ".mobi" ⟩, filename := s "a.mobi",
           format := s "mobi", size_bytes := 9, checksum_md5 := s "d",
           checksum_sha256 := s "e", status := s "pending" } : SourceFile)) with
        status := s "duplicate", duplicate_of_id := some 2 } : SourceFile) ∈
      process_duplicate_group
        [ { id := 1, source_path := ⟨ s "r", s "a", s ".mobi" ⟩, filename := s "a.mobi",
            format := s "mobi", size_bytes := 9, checksum_md5 := s "d",
            checksum_sha256 := s "e", status := s "pending" },
          { id := 2, source_path := ⟨ s "r", s "a", s ".epub" ⟩, filename := s "a.epub",
            format := s "epub", size_bytes := 9, checksum_md5 := s "d",
            checksum_sha256 := s "e", status := s "pending" } ] := by
  have h := claim_C8
    { id := 1, source_path := ⟨ s "r", s "a", s ".mobi" ⟩, filename := s "a.mobi",
      format := s "mobi", size_bytes := 9, checksum_md5 := s "d",
      checksum_sha256 := s "e", status := s "pending" }
    [ { id := 2, source_path := ⟨ s "r", s "a", s ".epub" ⟩, filename := s "a.epub",
        format := s "epub", size_bytes := 9, checksum_md5 := s "d",
        checksum_sha256 := s "e", status := s "pending" } ]
    (s "d") (by decide) (by decide)
  have h4 := h.2.2.2.1
    { id := 1, source_path := ⟨ s "r", s "a", s ".mobi" ⟩, filename := s "a.mobi",
      format := s "mobi", size_bytes := 9, checksum_md5 := s "d",
      checksum_sha256 := s "e", status := s "pending" }
    (by simp) (by decide)
  simpa using h4

theorem all_keys_ok : SUBJECT_TO_DDC.all (fun kv => keyOkB kv.1) = true := by decide

theorem replaceSep_spec (c : Char) : replaceSep c = c ∨ replaceSep c = '|' := by
  unfold replaceSep
  split
  · right; rfl
  · left; rfl

/-- Any direct hit `classify_from_categories` can make on a split part is
also a substring hit for `classify_from_subjects` on the same string, so the
categories fallback can only fire when the subjects pass already did. -/
theorem classify_from_categories_eq_none (subjects : List Str)
    (h : classify_from_subjects subjects = none) :
    classify_from_categories subjects = none := by
  unfold classify_from_subjects at h
  have hsubj := List.findSome?_eq_none_iff.mp h
  unfold classify_from_categories
  apply List.findSome?_eq_none_iff.mpr
  intro category hcat
  apply List.findSome?_eq_none_iff.mpr
  intro part hpart
  by_contra hfind
  obtain ⟨v, hv⟩ := Option.ne_none_iff_exists'.mp hfind
  unfold assocFind at hv
  obtain ⟨kv, hkv, _⟩ := Option.map_eq_some'.mp hv
  have hmem := List.mem_of_find?_eq_some hkv
  have hkey : kv.1 = pyStrip (pyLower part) := by
    have hpred := List.find?_some hkv
    simpa using hpred
  have hok := List.all_eq_true.mp all_keys_ok kv hmem
  simp only [keyOkB, Bool.and_eq_true, Bool.not_eq_true'] at hok
  have hne : kv.1 ≠ [] := by
    intro hnil
    rw [hnil] at hok
    simp at hok
  have hhead : ∀ c, kv.1.head? = some c → c.isWhitespace = false := by
    intro c hc
    have := hok.1.2
    rw [hc] at this
    simpa using this
  have hlast : ∀ c, kv.1.getLast? = some c → c.isWhitespace = false := by
    intro c hc
    have := hok.2
    rw [hc] at this
    simpa using this
  have hsplit := mem_splitChar '|' (category.map replaceSep) part hpart
  have hpartcat : part <:+: category :=
    infix_of_infix_map replaceSep '|' replaceSep_spec part category hsplit.1
      (fun c hc heq => hsplit.2 (heq ▸ hc))
  have h1 : pyLower part <:+: pyLower category := hpartcat.map Char.toLower
  have h2 : kv.1 <:+: pyLower category := by
    rw [hkey]
    exact (pyStrip_infix_sub (pyLower part)).trans h1
  have h3 : kv.1 <:+: pyStrip (pyLower category) :=
    infix_pyStrip_of_sub kv.1 (pyLower category) hne hhead hlast h2
  have hinner := hsubj category hcat
  cases haf : assocFind SUBJECT_TO_DDC (pyStrip (pyLower category)) with
  | some d => exact Option.noConfusion (by simpa only [haf] using hinner)
  | none =>
    simp only [haf] at hinner
    have hnone := List.findSome?_eq_none_iff.mp hinner kv hmem
    rw [if_pos (by simpa [pyIn] using h3)] at hnone
    exact Option.noConfusion hnone

/-- The code-resolution chain only produces confidences 0.95, 0.85, 0.6 or 0
(the 0.5 categories branch is unreachable), and `needs_review` is set only in
the 0-confidence branch. -/
theorem classifyBase_conf (enriched : EnrichedMetadata) :
    ((classifyBase enriched).confidence = mkRat 95 100 ∨
     (classifyBase enriched).confidence = mkRat 85 100 ∨
     (classifyBase enriched).confidence = mkRat 6 10 ∨
     (classifyBase enriched).confidence = 0) ∧
    ((classifyBase enriched).confidence = 0 ∨
     (classifyBase enriched).needs_review = false) := by
  simp only [classifyBase]
  by_cases hddc : truthyOpt enriched.ddc_normalised = true
  · rw [if_pos hddc]
    by_cases hsrc : enriched.sources.contains (s "oclc") = true
    · simp only [hsrc, if_true]
      simp
    · have hsrc' : enriched.sources.contains (s "oclc") = false := by
        simpa using hsrc
      simp only [hsrc', Bool.false_eq_true, if_false]
      rw [if_neg (by decide : ¬ (s "openlibrary" = s "oclc"))]
      simp
  · rw [if_neg hddc]
    cases hsubj : classify_from_subjects enriched.subjects with
    | some d => exact ⟨Or.inr (Or.inr (Or.inl rfl)), Or.inr rfl⟩
    | none =>
      rw [classify_from_categories_eq_none enriched.subjects hsubj]
      exact ⟨Or.inr (Or.inr (Or.inr rfl)), Or.inl rfl⟩

/-- C6: whenever `classify` marks a record as fiction, the returned
confidence is at least 0.6 and `needs_review` is false, in every
code-resolution branch. -/
theorem claim_C6 (enriched : EnrichedMetadata)
    (h : (classify enriched).is_fiction = true) :
    (0.6 : ℚ) ≤ (classify enriched).confidence ∧
    (classify enriched).needs_review = false := by
  obtain ⟨hconf, hrev⟩ := classifyBase_conf enriched
  simp only [classify] at h ⊢
  cases hfic : is_fiction (classifyBase enriched).ddc enriched.subjects with
  | false =>
    rw [hfic] at h
    simp at h
  | true =>
    rw [hfic] at h
    rw [if_pos rfl] at h ⊢
    by_cases hlt : (classifyBase enriched).confidence < mkRat 5 10
    · rw [if_pos hlt]
      exact ⟨by norm_num [Rat.mkRat_eq_div], rfl⟩
    · rw [if_neg hlt]
      push_neg at hlt
      refine ⟨?_, ?_⟩
      · show (0.6 : ℚ) ≤ (classifyBase enriched).confidence
        rcases hconf with h1 | h1 | h1 | h1
        · rw [h1]; norm_num [Rat.mkRat_eq_div]
        · rw [h1]; norm_num [Rat.mkRat_eq_div]
        · rw [h1]; norm_num [Rat.mkRat_eq_div]
        · rw [h1] at hlt; norm_num [Rat.mkRat_eq_div] at hlt
      · show (classifyBase enriched).needs_review = false
        rcases hrev with h1 | h1
        · rw [h1] at hlt
          norm_num [Rat.mkRat_eq_div] at hlt
        · exact h1

/-- Witness for C6: subjects `["Novels"]` reach the needs-review branch yet
are detected as fiction, so the confidence is boosted to 0.6. -/
theorem claim_C6_witness :
    (0.6 : ℚ) ≤ (classify { subjects := [ s "Novels" ] }).confidence ∧
    (classify { subjects := [ s "Novels" ] }).needs_review = false :=
  claim_C6 { subjects := [ s "Novels" ] } (by decide)

theorem ensure_classification_exists_pres (db : DB) (d : Option Str) :
    (ensure_classification_exists db d).files = db.files ∧
    (ensure_classification_exists db d).nextFileId = db.nextFileId := by
  unfold ensure_classification_exists
  repeat' split
  all_goals exact ⟨rfl, rfl⟩

theorem find_or_create_creator_pres (db : DB) (name : Str) :
    ((find_or_create_creator db name).1).files = db.files ∧
    ((find_or_create_creator db name).1).nextFileId = db.nextFileId := by
  simp only [find_or_create_creator]
  split <;> exact ⟨rfl, rfl⟩

theorem authorStep_pres (iid : Nat) (st : DB × List Str × Nat) (a : Str) :
    ((authorStep iid st a).1).files = (st.1).files ∧
    ((authorStep iid st a).1).nextFileId = (st.1).nextFileId := by
  obtain ⟨db, seen, pos⟩ := st
  have h := find_or_create_creator_pres db a
  simp only [authorStep]
  split
  · exact ⟨rfl, rfl⟩
  · rcases hfc : find_or_create_creator db a with ⟨db2, cr⟩
    rw [hfc] at h
    simp only [hfc]
    exact ⟨h.1, h.2⟩

theorem foldl_authorStep_pres (iid : Nat) (l : List Str) : ∀ st : DB × List Str × Nat,
    (((l.foldl (authorStep iid) st)).1).files = (st.1).files ∧
    (((l.foldl (authorStep iid) st)).1).nextFileId = (st.1).nextFileId := by
  induction l with
  | nil => intro st; exact ⟨rfl, rfl⟩
  | cons a l ih =>
    intro st
    simp only [List.foldl_cons]
    have h1 := authorStep_pres iid st a
    have h2 := ih (authorStep iid st a)
    exact ⟨h2.1.trans h1.1, h2.2.trans h1.2⟩

theorem fociCreate_pres (db : DB) (title : Str) (authors : List Str)
    (enriched : EnrichedMetadata) (classification : ClassificationResult)
    (media_type : Str) (series : Option Str) (series_index : Option ℚ)
    (tags : Option (List Str)) :
    ((fociCreate db title authors enriched classification media_type series
        series_index tags).1).files = db.files ∧
    ((fociCreate db title authors enriched classification media_type series
        series_index tags).1).nextFileId = db.nextFileId := by
  simp only [fociCreate]
  exact ⟨(foldl_authorStep_pres db.nextItemId authors _).1,
         (foldl_authorStep_pres db.nextItemId authors _).2⟩

theorem find_or_create_item_pres (db : DB) (title : Str) (authors : List Str)
    (enriched : EnrichedMetadata) (classification : ClassificationResult)
    (media_type : Str) (series : Option Str) (series_index : Option ℚ) :
    ((find_or_create_item db title authors enriched classification media_type
        series series_index).1).files = db.files ∧
    ((find_or_create_item db title authors enriched classification media_type
        series series_index).1).nextFileId = db.nextFileId := by
  have h0 := ensure_classification_exists_pres db classification.ddc
  simp only [find_or_create_item]
  repeat' split
  all_goals first
    | exact ⟨h0.1, h0.2⟩
    | exact ⟨(fociCreate_pres _ _ _ _ _ _ _ _ _).1.trans h0.1,
             (fociCreate_pres _ _ _ _ _ _ _ _ _).2.trans h0.2⟩

theorem cvr_mismatch (md5 : Content → Str) (fs : FS) (source destination : PathT)
    (c : Content) (e : Str) (cl : Option Str)
    (hsrc : fs source.render = some c) (hdst : fs destination.render = none)
    (hne : ¬ md5 c = e) :
    copy_verify_remove md5 fs source destination (some e) cl =
      .ok (fsDel (fsSet fs destination.render c) destination.render, false) ∧
    (fsDel (fsSet fs destination.render c) destination.render) source.render = some c ∧
    (fsDel (fsSet fs destination.render c) destination.render) destination.render = none ∧
    (∀ q, q ≠ destination.render →
      (fsDel (fsSet fs destination.render c) destination.render) q = fs q) := by
  have hsd : source.render ≠ destination.render := by
    intro h
    rw [h, hdst] at hsrc
    exact Option.noConfusion hsrc
  refine ⟨?_, ?_, ?_, ?_⟩
  · simp only [copy_verify_remove, hdst, hsrc, pure, Except.pure, bind, Except.bind,
      if_neg hne]
  · simp [fsDel, fsSet, hsd, hsrc]
  · simp [fsDel]
  · intro q hq
    by_cases hq2 : q = destination.render
    · exact absurd hq2 hq
    · simp [fsDel, fsSet, hq2]

theorem cvr_success (md5 : Content → Str) (fs : FS) (source destination : PathT)
    (c : Content) (e : Str) (cl : Option Str)
    (hsrc : fs source.render = some c) (hdst : fs destination.render = none)
    (he : md5 c = e) :
    copy_verify_remove md5 fs source destination (some e) cl =
      .ok (fsDel (fsSet fs destination.render c) source.render, true) ∧
    (fsDel (fsSet fs destination.render c) source.render) source.render = none ∧
    (fsDel (fsSet fs destination.render c) source.render) destination.render = some c := by
  have hsd : source.render ≠ destination.render := by
    intro h
    rw [h, hdst] at hsrc
    exact Option.noConfusion hsrc
  refine ⟨?_, ?_, ?_⟩
  · simp only [copy_verify_remove, hdst, hsrc, pure, Except.pure, bind, Except.bind,
      if_pos he, remove_and_cleanup]
  · simp [fsDel]
  · have hds : destination.render ≠ source.render := fun h => hsd h.symm
    simp [fsDel, fsSet, hds]

theorem save_cover_pres (env : FilerEnv) (fs : FS) (sp : PathT) (fmt : Str)
    (url : Option Str) (folder : Str) (q : Str)
    (hq : q ≠ PathT.render ⟨folder, s "cover", s ".jpg"⟩) :
    (save_cover_to_folder env fs sp fmt url folder).1 q = fs q := by
  simp only [save_cover_to_folder]
  split
  · rfl
  · simp [fsSet, hq]

/-- C1: when the freshly copied destination digest differs from the expected
digest, `copy_verify_remove` deletes the bad copy, reports `false` and leaves
the source (and every path other than the destination) untouched; `file_item`
then marks the intake row `failed` with the verification error message,
returns no item and no `File` row, leaves the catalogue `files` table
unchanged, and afterwards the source content is still in place while the
destination is absent. -/
theorem claim_C1 (env : FilerEnv) (db : DB) (fs : FS) (sf : SourceFile)
    (enriched : EnrichedMetadata) (classification : ClassificationResult)
    (c : Content)
    (hnofile : db.files.find? (fun f => decide (f.checksum_md5 = sf.checksum_md5)) = none)
    (hsrc : fs sf.source_path.render = some c)
    (htgt : fs (fileItemTarget env sf enriched classification).render = none)
    (hcs : sf.source_path.render ≠
      PathT.render ⟨(fileItemTarget env sf enriched classification).dir, s "cover", s ".jpg"⟩)
    (hct : (fileItemTarget env sf enriched classification).render ≠
      PathT.render ⟨(fileItemTarget env sf enriched classification).dir, s "cover", s ".jpg"⟩)
    (hmm : ¬ env.md5 c = sf.checksum_md5) :
    (∀ fs1 : FS, fs1 sf.source_path.render = some c →
      fs1 (fileItemTarget env sf enriched classification).render = none →
      ∃ fs2, copy_verify_remove env.md5 fs1 sf.source_path
          (fileItemTarget env sf enriched classification)
          (some sf.checksum_md5) (some env.returns_dir) = .ok (fs2, false) ∧
        fs2 sf.source_path.render = some c ∧
        fs2 (fileItemTarget env sf enriched classification).render = none ∧
        ∀ q, q ≠ (fileItemTarget env sf enriched classification).render → fs2 q = fs1 q) ∧
    ∃ out, file_item env db fs sf enriched classification false = .ok out ∧
      out.sf.status = s "failed" ∧
      out.sf.error_message = some (s "Copy verification failed") ∧
      out.item = none ∧
      out.file = none ∧
      out.db.files = db.files ∧
      out.fs sf.source_path.render = some c ∧
      out.fs (fileItemTarget env sf enriched classification).render = none := by
  constructor
  · intro fs1 hs1 hd1
    obtain ⟨h1, h2, h3, h4⟩ := cvr_mismatch env.md5 fs1 sf.source_path
      (fileItemTarget env sf enriched classification) c sf.checksum_md5
      (some env.returns_dir) hs1 hd1 hmm
    exact ⟨_, h1, h2, h3, h4⟩
  · rcases hseries : fileItemSeries sf with ⟨series, sidx⟩
    rcases hfoci : find_or_create_item db (fileItemTitle env sf enriched)
        enriched.authors enriched classification (env.get_media_type sf.format)
        series sidx with ⟨db2, item⟩
    have hpres := find_or_create_item_pres db (fileItemTitle env sf enriched)
        enriched.authors enriched classification (env.get_media_type sf.format)
        series sidx
    rw [hfoci] at hpres
    rcases hcov : (if truthyOpt item.cover_path = false then
        save_cover_to_folder env fs sf.source_path sf.format enriched.cover_url
          (fileItemTarget env sf enriched classification).dir
      else (fs, none)) with ⟨fs2, cover_path⟩
    have hfs2q : ∀ q, q ≠ PathT.render
        ⟨(fileItemTarget env sf enriched classification).dir, s "cover", s ".jpg"⟩ →
        fs2 q = fs q := by
      intro q hq
      split at hcov
      · have hgen := save_cover_pres env fs sf.source_path sf.format enriched.cover_url
          (fileItemTarget env sf enriched classification).dir q hq
        rw [hcov] at hgen
        exact hgen
      · rw [Prod.mk.injEq] at hcov
        rw [← hcov.1]
    have hfs2src : fs2 sf.source_path.render = some c :=
      (hfs2q sf.source_path.render hcs).trans hsrc
    have hfs2tgt : fs2 (fileItemTarget env sf enriched classification).render = none :=
      (hfs2q _ hct).trans htgt
    obtain ⟨hc1, hc2, hc3, -⟩ := cvr_mismatch env.md5 fs2 sf.source_path
      (fileItemTarget env sf enriched classification) c sf.checksum_md5
      (some env.returns_dir) hfs2src hfs2tgt hmm
    have hepath : ensure_unique_path fs (fileItemTarget env sf enriched classification) =
        .ok (fileItemTarget env sf enriched classification) := by
      simp [ensure_unique_path, fsExists, htgt]
    refine ⟨⟨db2,
      fsDel (fsSet fs2 (fileItemTarget env sf enriched classification).render c)
        (fileItemTarget env sf enriched classification).render,
      { sf with status := s "failed",
                error_message := some (s "Copy verification failed") },
      none, none⟩, ?_, rfl, rfl, rfl, rfl, hpres.1, hc2, hc3⟩
    simp only [file_item, hseries, hnofile, hepath, hfoci, hcov, hc1]
    simp only [Bool.false_eq_true, if_false, if_true]

theorem claim_C1_witness :
    ∃ out, file_item envC {} fsC sfC0 {} {} false = .ok out ∧
      out.sf.status = s "failed" ∧
      out.sf.error_message = some (s "Copy verification failed") ∧
      out.item = none ∧
      out.file = none ∧
      out.db.files = DB.files {} ∧
      out.fs sfC0.source_path.render = some [1] ∧
      out.fs (fileItemTarget envC sfC0 {} {}).render = none :=
  (claim_C1 envC {} fsC sfC0 {} {} [1] (by decide) (by decide) (by decide)
    (by decide) (by decide) (by decide)).2

theorem file_item_migrated (env : FilerEnv) (db : DB) (fs : FS) (sf : SourceFile)
    (enriched : EnrichedMetadata) (classification : ClassificationResult) (c : Content)
    (hnofile : db.files.find? (fun f => decide (f.checksum_md5 = sf.checksum_md5)) = none)
    (hsrc : fs sf.source_path.render = some c)
    (htgt : fs (fileItemTarget env sf enriched classification).render = none)
    (hcs : sf.source_path.render ≠
      PathT.render ⟨(fileItemTarget env sf enriched classification).dir, s "cover", s ".jpg"⟩)
    (hct : (fileItemTarget env sf enriched classification).render ≠
      PathT.render ⟨(fileItemTarget env sf enriched classification).dir, s "cover", s ".jpg"⟩)
    (hok : env.md5 c = sf.checksum_md5) :
    ∃ out rec,
      file_item env db fs sf enriched classification false = .ok out ∧
      out.file = some rec ∧
      out.db.files = db.files ++ [rec] ∧
      rec.checksum_md5 = sf.checksum_md5 ∧
      rec.checksum_sha256 = sf.checksum_sha256 ∧
      out.sf.status = s "migrated" ∧
      out.sf.migrated_file_id = none := by
  rcases hseries : fileItemSeries sf with ⟨series, sidx⟩
  rcases hfoci : find_or_create_item db (fileItemTitle env sf enriched)
      enriched.authors enriched classification (env.get_media_type sf.format)
      series sidx with ⟨db2, item⟩
  have hpres := find_or_create_item_pres db (fileItemTitle env sf enriched)
      enriched.authors enriched classification (env.get_media_type sf.format)
      series sidx
  rw [hfoci] at hpres
  rcases hcov : (if truthyOpt item.cover_path = false then
      save_cover_to_folder env fs sf.source_path sf.format enriched.cover_url
        (fileItemTarget env sf enriched classification).dir
    else (fs, none)) with ⟨fs2, cover_path⟩
  have hfs2q : ∀ q, q ≠ PathT.render
      ⟨(fileItemTarget env sf enriched classification).dir, s "cover", s ".jpg"⟩ →
      fs2 q = fs q := by
    intro q hq
    split at hcov
    · have hgen := save_cover_pres env fs sf.source_path sf.format enriched.cover_url
        (fileItemTarget env sf enriched classification).dir q hq
      rw [hcov] at hgen
      exact hgen
    · rw [Prod.mk.injEq] at hcov
      rw [← hcov.1]
  have hfs2src : fs2 sf.source_path.render = some c :=
    (hfs2q sf.source_path.render hcs).trans hsrc
  have hfs2tgt : fs2 (fileItemTarget env sf enriched classification).render = none :=
    (hfs2q _ hct).trans htgt
  obtain ⟨hc1, hc2, hc3⟩ := cvr_success env.md5 fs2 sf.source_path
    (fileItemTarget env sf enriched classification) c sf.checksum_md5
    (some env.returns_dir) hfs2src hfs2tgt hok
  have hepath : ensure_unique_path fs (fileItemTarget env sf enriched classification) =
      .ok (fileItemTarget env sf enriched classification) := by
    simp [ensure_unique_path, fsExists, htgt]
  rcases hfe : file_item env db fs sf enriched classification false with e | out
  · simp only [file_item, hseries, hnofile, hepath, hfoci, hcov, hc1,
      Bool.false_eq_true, Bool.true_eq_false, if_false, if_true] at hfe
    exact Except.noConfusion hfe
  · simp only [file_item, hseries, hnofile, hepath, hfoci, hcov, hc1,
      Bool.false_eq_true, Bool.true_eq_false, if_false, if_true] at hfe
    injection hfe with h
    subst h
    exact ⟨_, _, rfl, rfl, by rw [← hpres.1], rfl, rfl, rfl, rfl⟩

/-- C3: filing the same digest twice yields one `File` row.  First, in a
two-call scenario where the first intake row migrates cleanly (creating the
single `File` row `rec`, while the migrated record's own link stays `none`
because the program reads the unflushed row's primary key), the second call
on a row with the same digest returns `duplicate`, points its
`migrated_file_id` at the already-migrated `File` row `rec`, adds no row,
and exactly one `files` row carries that digest.  Second, every successful
`file_item` call preserves the invariant that the
`(checksum_md5, checksum_sha256)` pair is unique among `files` rows. -/
theorem claim_C3 (env : FilerEnv) (db : DB) (fs : FS) (sf1 sf2 : SourceFile)
    (enr1 enr2 : EnrichedMetadata) (cl1 cl2 : ClassificationResult) (c : Content)
    (hnofile : db.files.find? (fun f => decide (f.checksum_md5 = sf1.checksum_md5)) = none)
    (hsrc : fs sf1.source_path.render = some c)
    (htgt : fs (fileItemTarget env sf1 enr1 cl1).render = none)
    (hcs : sf1.source_path.render ≠
      PathT.render ⟨(fileItemTarget env sf1 enr1 cl1).dir, s "cover", s ".jpg"⟩)
    (hct : (fileItemTarget env sf1 enr1 cl1).render ≠
      PathT.render ⟨(fileItemTarget env sf1 enr1 cl1).dir, s "cover", s ".jpg"⟩)
    (hok : env.md5 c = sf1.checksum_md5)
    (hsame : sf2.checksum_md5 = sf1.checksum_md5) :
    (∃ out1 out2 rec,
      file_item env db fs sf1 enr1 cl1 false = .ok out1 ∧
      file_item env out1.db out1.fs sf2 enr2 cl2 false = .ok out2 ∧
      out1.sf.status = s "migrated" ∧
      out1.file = some rec ∧
      out1.db.files = db.files ++ [rec] ∧
      out1.sf.migrated_file_id = none ∧
      out2.sf.status = s "duplicate" ∧
      out2.sf.migrated_file_id = some rec.id ∧
      out2.db.files = out1.db.files ∧
      (out2.db.files.filter
        (fun f => decide (f.checksum_md5 = sf2.checksum_md5))).length = 1) ∧
    (∀ (env2 : FilerEnv) (db2 : DB) (fs2 : FS) (sf : SourceFile)
        (enr : EnrichedMetadata) (cl : ClassificationResult) (dry : Bool)
        (out : FileItemOut),
      file_item env2 db2 fs2 sf enr cl dry = .ok out →
      db2.files.Pairwise (fun a b =>
        ¬(a.checksum_md5 = b.checksum_md5 ∧ a.checksum_sha256 = b.checksum_sha256)) →
      out.db.files.Pairwise (fun a b =>
        ¬(a.checksum_md5 = b.checksum_md5 ∧ a.checksum_sha256 = b.checksum_sha256))) := by
  constructor
  · obtain ⟨out1, rec, hfe1, hfile1, hfiles1, hmd, hsha, hst1, hlink1⟩ :=
      file_item_migrated env db fs sf1 enr1 cl1 c hnofile hsrc htgt hcs hct hok
    have hfind2 : out1.db.files.find?
        (fun f => decide (f.checksum_md5 = sf2.checksum_md5)) = some rec := by
      rw [hfiles1, hsame, List.find?_append, hnofile]
      simp [List.find?, hmd]
    rcases hser2 : fileItemSeries sf2 with ⟨ser2, sidx2⟩
    have hfe2 : file_item env out1.db out1.fs sf2 enr2 cl2 false =
        .ok ⟨out1.db, fsDel out1.fs sf2.source_path.render,
             { sf2 with status := s "duplicate", migrated_file_id := some rec.id },
             out1.db.items.find? (fun it => decide (it.id = rec.item_id)),
             some rec⟩ := by
      simp only [file_item, hser2, hfind2, Bool.false_eq_true, if_false, if_true]
    have hflt : (out1.db.files.filter
        (fun f => decide (f.checksum_md5 = sf2.checksum_md5))).length = 1 := by
      rw [hfiles1, hsame, List.filter_append]
      have h1 : db.files.filter (fun f => decide (f.checksum_md5 = sf1.checksum_md5)) = [] := by
        rw [List.filter_eq_nil_iff]
        intro a ha
        have := List.find?_eq_none.mp hnofile a ha
        simpa using this
      rw [h1]
      simp [List.filter, hmd]
    exact ⟨out1, _, rec, hfe1, hfe2, hst1, hfile1, hfiles1, hlink1, rfl, rfl, rfl, hflt⟩
  · intro env2 db2 fs2 sf enr cl dry out hco hpw
    rcases hs0 : fileItemSeries sf with ⟨ser, sidx⟩
    simp only [file_item, hs0] at hco
    rcases hf0 : db2.files.find? (fun f => decide (f.checksum_md5 = sf.checksum_md5))
      with _ | rec0
    · simp only [hf0] at hco
      rcases he0 : ensure_unique_path fs2 (fileItemTarget env2 sf enr cl) with e | tp
      · simp only [he0] at hco
        exact Except.noConfusion hco
      · simp only [he0] at hco
        rcases hfc0 : find_or_create_item db2 (fileItemTitle env2 sf enr) enr.authors enr cl
            (env2.get_media_type sf.format) ser sidx with ⟨dbA, itemA⟩
        have hpresA := find_or_create_item_pres db2 (fileItemTitle env2 sf enr) enr.authors
            enr cl (env2.get_media_type sf.format) ser sidx
        rw [hfc0] at hpresA
        simp only [hfc0] at hco
        split at hco
        · injection hco with h
          subst h
          exact (hpresA.1.symm ▸ hpw :
            dbA.files.Pairwise (fun a b =>
              ¬(a.checksum_md5 = b.checksum_md5 ∧ a.checksum_sha256 = b.checksum_sha256)))
        · rcases hcv0 : (if truthyOpt itemA.cover_path = false then
              save_cover_to_folder env2 fs2 sf.source_path sf.format enr.cover_url tp.dir
            else (fs2, none)) with ⟨fsB, cpB⟩
          simp only [hcv0] at hco
          rcases hc0 : copy_verify_remove env2.md5 fsB sf.source_path tp
              (some sf.checksum_md5) (some env2.returns_dir) with e2 | p
          · simp only [hc0] at hco
            injection hco with h
            subst h
            exact (hpresA.1.symm ▸ hpw :
              dbA.files.Pairwise (fun a b =>
                ¬(a.checksum_md5 = b.checksum_md5 ∧ a.checksum_sha256 = b.checksum_sha256)))
          · rcases p with ⟨fsC, succ⟩
            simp only [hc0] at hco
            split at hco
            · injection hco with h
              subst h
              exact (hpresA.1.symm ▸ hpw :
                dbA.files.Pairwise (fun a b =>
                  ¬(a.checksum_md5 = b.checksum_md5 ∧ a.checksum_sha256 = b.checksum_sha256)))
            · injection hco with h
              subst h
              refine List.pairwise_append.mpr ⟨(hpresA.1.symm ▸ hpw :
                dbA.files.Pairwise (fun a b =>
                  ¬(a.checksum_md5 = b.checksum_md5 ∧
                    a.checksum_sha256 = b.checksum_sha256))), by simp, ?_⟩
              intro a ha b hb
              have ha2 : a ∈ dbA.files := ha
              have hnot := List.find?_eq_none.mp hf0 a (hpresA.1 ▸ ha2)
              obtain rfl := List.mem_singleton.mp hb
              intro hcontra
              exact (by simpa using hnot :
                ¬ a.checksum_md5 = sf.checksum_md5) hcontra.1
    · simp only [hf0] at hco
      injection hco with h
      subst h
      exact hpw

theorem claim_C3_witness :
    ∃ out1 out2 rec,
      file_item envC {} fsC sfC1 {} {} false = .ok out1 ∧
      file_item envC out1.db out1.fs sfC2 {} {} false = .ok out2 ∧
      out1.sf.status = s "migrated" ∧
      out1.file = some rec ∧
      out1.db.files = DB.files {} ++ [rec] ∧
      out1.sf.migrated_file_id = none ∧
      out2.sf.status = s "duplicate" ∧
      out2.sf.migrated_file_id = some rec.id ∧
      out2.db.files = out1.db.files ∧
      (out2.db.files.filter
        (fun f => decide (f.checksum_md5 = sfC2.checksum_md5))).length = 1 :=
  (claim_C3 envC {} fsC sfC1 sfC2 {} {} {} {} [1] (by decide) (by decide) (by decide)
    (by decide) (by decide) (by decide) (by decide)).1

end Alexandria
